import Mathlib

/-!
Verification development for a WebSocket subscription proxy.

The development shallowly embeds the two stateful components of the
program — the subscription registry (`subscriptions.service.ts`) and the
upstream connection manager (`upstream.service.ts`) — together with the
client-message validator (`validation.util.ts`) and the gateway reply
logic (`WsProxyGateway.handleRawMessage`).

Modelling conventions:
* JavaScript `Map`s become insertion-ordered association lists over `Nat`
  keys (`aset` updates in place or appends, like `Map.set`; `aerase` is
  `Map.delete`).
* Each synchronous turn of the single-threaded event loop becomes one
  pure state-transition function; promise resolution / rejection and
  timer firing are separate transition functions, since in the program
  they run in their own turns.
* `Subscription` objects are heap objects shared by reference between the
  forward map and pending closures, so the state keeps one object store
  (`objs`, keyed by the proxy id, which is unique for the process
  lifetime) and represents the forward map `subs` as its key list
  (`subsKeys`); `subs.get(pid)` is `getSub`, defined only for keys that
  are members of `subsKeys`.
* Outbound upstream RPC writes are accumulated in a `sent` log (most
  recent first).  Create entries are tagged with the proxy id of the
  subscription whose closure issued them; this tag is bookkeeping only
  and affects no transition.
-/

set_option maxRecDepth 8192

namespace HeliusProxy


/-! ## Association lists (JavaScript `Map` semantics) -/

def alookup {α : Type} (k : Nat) : List (Nat × α) → Option α
  | [] => none
  | (k1, v) :: t => if k = k1 then some v else alookup k t

def aset {α : Type} (k : Nat) (v : α) : List (Nat × α) → List (Nat × α)
  | [] => [(k, v)]
  | (k1, v1) :: t => if k = k1 then (k, v) :: t else (k1, v1) :: aset k v t

def aerase {α : Type} (k : Nat) : List (Nat × α) → List (Nat × α)
  | [] => []
  | (k1, v1) :: t => if k = k1 then t else (k1, v1) :: aerase k t

/-! ## Subscription registry (`subscriptions.service.ts`)

`Sub` mirrors the `Subscription` interface of `subscriptions.types.ts`
(`params` abstracted to one `Nat` token, since the registry only stores
and replays them; `pendingNonNull` mirrors `pendingPromise !== null`;
`timerArmed` mirrors `unsubscribeTimer !== null`).
-/

structure Sub where
  proxySubId : Nat
  connectionId : Nat
  method : String
  params : Nat
  heliusSubId : Option Nat
  pendingNonNull : Bool
  cancelled : Bool
  timerArmed : Bool
deriving Repr, DecidableEq

/-- `UNSUB_METHOD` table: method → paired unsubscribe method. -/
def UNSUB_METHOD (m : String) : Option String :=
  if m = "accountSubscribe" then some "accountUnsubscribe"
  else if m = "programSubscribe" then some "programUnsubscribe"
  else if m = "logsSubscribe" then some "logsUnsubscribe"
  else if m = "slotSubscribe" then some "slotUnsubscribe"
  else if m = "signatureSubscribe" then some "signatureUnsubscribe"
  else if m = "rootSubscribe" then some "rootUnsubscribe"
  else none

/-- An upstream RPC write issued by the registry.  `create` entries carry the
proxy id of the subscription whose closure issued them (bookkeeping tag;
the wire payload is only the method and params). -/
inductive Req where
  | create (pid : Nat) (method : String) (params : Nat)
  | unsubR (method : String) (hid : Nat)
deriving Repr, DecidableEq

/-- Which upstream RPC a subscription is awaiting: its initial create
(`subscribe`) or a reconnect re-issue (`handleReconnected`). -/
inductive Flight where
  | createF
  | resyncF
deriving Repr, DecidableEq

structure RegState where
  /-- Object store: every `Subscription` object ever allocated, by proxy id. -/
  objs : List (Nat × Sub)
  /-- Keys of the forward map `subs` (proxy id → Subscription). -/
  subsKeys : List Nat
  /-- `heliusIdToProxy` (upstream id → proxy id). -/
  heliusIdToProxy : List (Nat × Nat)
  /-- `connToSub` (connection id → proxy id). -/
  connToSub : List (Nat × Nat)
  /-- Outstanding create/re-subscribe RPCs, by proxy id. -/
  inflight : List (Nat × Flight)
  /-- Log of upstream RPC writes, most recent first. -/
  sent : List Req
deriving Repr, DecidableEq

def initReg : RegState := ⟨[], [], [], [], [], []⟩

/-- `this.subs.get(pid)`. -/
def getSub (s : RegState) (pid : Nat) : Option Sub :=
  if pid ∈ s.subsKeys then alookup pid s.objs else none

/-- Mutate the `Subscription` object stored under `pid` (reference update:
visible through every map holding the object). -/
def updObj (s : RegState) (pid : Nat) (f : Sub → Sub) : RegState :=
  match alookup pid s.objs with
  | none => s
  | some sub => { s with objs := aset pid (f sub) s.objs }

/-- `private async teardown(sub)`: clear the removal timer, delete the forward
entry, then either flag a pending create as cancelled or (if an upstream id is
recorded and the method has a paired unsubscribe) delete the reverse entry and
send the unsubscribe RPC. -/
def teardownFn (s : RegState) (pid : Nat) : RegState :=
  match alookup pid s.objs with
  | none => s
  | some sub0 =>
    let sub : Sub := { sub0 with timerArmed := false }
    let s1 : RegState := { s with
      objs := aset pid sub s.objs,
      subsKeys := s.subsKeys.erase pid }
    if sub.pendingNonNull then
      { s1 with objs := aset pid { sub with cancelled := true } s1.objs }
    else
      match sub.heliusSubId, UNSUB_METHOD sub.method with
      | some hid, some um =>
        { s1 with
          heliusIdToProxy := aerase hid s1.heliusIdToProxy,
          sent := Req.unsubR um hid :: s1.sent }
      | _, _ => s1

/-- `subscribe(connectionId, method, params)` up to its `await`: tear down the
connection's existing subscription, allocate the new `Subscription` (fresh
proxy id `pid`), insert it into `subs` and `connToSub`, write the create RPC
upstream, and record the in-flight promise. -/
def subscribeStep (s : RegState) (cid pid : Nat) (m : String) (prm : Nat) : RegState :=
  let s2 : RegState :=
    match alookup cid s.connToSub with
    | some epid =>
      match getSub s epid with
      | some _ => teardownFn s epid
      | none => s
    | none => s
  let sub : Sub := { proxySubId := pid, connectionId := cid, method := m, params := prm,
                     heliusSubId := none, pendingNonNull := true, cancelled := false,
                     timerArmed := false }
  { s2 with
    objs := aset pid sub s2.objs,
    subsKeys := if pid ∈ s2.subsKeys then s2.subsKeys else s2.subsKeys ++ [pid],
    connToSub := aset cid pid s2.connToSub,
    inflight := aset pid Flight.createF s2.inflight,
    sent := Req.create pid m prm :: s2.sent }

/-- The `.then` handler of the create RPC issued by `subscribe`, fired when the
upstream responds with `hid`.  If the subscription was cancelled meanwhile, an
immediate unsubscribe RPC is written and nothing is installed; otherwise the
upstream id is recorded and the reverse entry installed.  The second component
is the settlement of the promise `subscribe` awaits (the handler returns
normally in both branches). -/
def resolveCreate (s : RegState) (pid hid : Nat) : RegState × Except Unit Nat :=
  let s1 : RegState := { s with inflight := aerase pid s.inflight }
  match alookup pid s1.objs with
  | none => (s1, Except.ok hid)
  | some sub =>
    if sub.cancelled then
      match UNSUB_METHOD sub.method with
      | some um => ({ s1 with sent := Req.unsubR um hid :: s1.sent }, Except.ok hid)
      | none => (s1, Except.ok hid)
    else
      let s2 : RegState := { s1 with
        objs := aset pid { sub with heliusSubId := some hid, pendingNonNull := false } s1.objs }
      ({ s2 with heliusIdToProxy := aset hid pid s2.heliusIdToProxy }, Except.ok hid)

/-- The `.catch` handler of the create RPC issued by `subscribe`: clear the
pending handle, purge the subscription (`removeSub`), and rethrow (the
promise `subscribe` awaits rejects). -/
def rejectCreate (s : RegState) (pid : Nat) : RegState × Except Unit Nat :=
  let s1 : RegState := { s with inflight := aerase pid s.inflight }
  match alookup pid s1.objs with
  | none => (s1, Except.error ())
  | some sub =>
    let s2 : RegState := { s1 with objs := aset pid { sub with pendingNonNull := false } s1.objs }
    -- removeSub(proxySubId)
    match getSub s2 pid with
    | none => (s2, Except.error ())
    | some sub2 =>
      ({ s2 with
         subsKeys := s2.subsKeys.erase pid,
         connToSub := aerase sub2.connectionId s2.connToSub }, Except.error ())

/-- `await promise; return proxySubId`: the value `subscribe` hands its caller. -/
def subscribeReturn (pid : Nat) (settled : Except Unit Nat) : Except Unit Nat :=
  match settled with
  | Except.ok _ => Except.ok pid
  | Except.error e => Except.error e

/-- `unsubscribe(proxySubId)`: `false` for an unknown id; otherwise delete the
connection entry, arm (re-arm) the grace timer (`scheduleRemoval`), return
`true`. -/
def unsubscribeStep (s : RegState) (pid : Nat) : RegState × Bool :=
  match getSub s pid with
  | none => (s, false)
  | some sub =>
    let s1 : RegState := { s with connToSub := aerase sub.connectionId s.connToSub }
    (updObj s1 pid (fun t => { t with timerArmed := true }), true)

/-- `handleDisconnect(connectionId)`: arm the grace timer for the connection's
subscription (if any), then delete the connection entry. -/
def disconnectStep (s : RegState) (cid : Nat) : RegState :=
  match alookup cid s.connToSub with
  | none => s
  | some pid =>
    let s1 : RegState :=
      match getSub s pid with
      | some _ => updObj s pid (fun t => { t with timerArmed := true })
      | none => s
    { s1 with connToSub := aerase cid s1.connToSub }

/-- The grace-period timer callback armed by `scheduleRemoval`: null the timer
handle and run `teardown`.  Guarded on the timer actually being armed. -/
def timerFire (s : RegState) (pid : Nat) : RegState :=
  match alookup pid s.objs with
  | none => s
  | some sub =>
    if sub.timerArmed then
      teardownFn (updObj s pid (fun t => { t with timerArmed := false })) pid
    else s

/-- `handleNotification`: map the upstream id back to the owning connection
(returns the connection id and proxy id the payload is forwarded with, or
`none` when the notification is dropped). -/
def handleNotificationR (s : RegState) (hid : Nat) : Option (Nat × Nat) :=
  match alookup hid s.heliusIdToProxy with
  | none => none
  | some pid =>
    match getSub s pid with
    | none => none
    | some sub => some (sub.connectionId, pid)

/-! ### Reconnect resync (`handleReconnected`)

`heliusIdToProxy.clear()` followed by a loop over `subs`.  For each entry the
loop either cancels the removal timer and runs `teardown` (subscription
pending removal), or clears the upstream id, re-issues the create RPC and
suspends; the RPC's `.then` / `.catch` handlers run in their own turns. -/

/-- `this.heliusIdToProxy.clear()`. -/
def reconnectClear (s : RegState) : RegState :=
  { s with heliusIdToProxy := [] }

/-- Loop body for a subscription without an armed removal timer, up to the
`await`: null the upstream id, write the re-subscribe RPC, record the
in-flight promise. -/
def resyncIssueOne (s : RegState) (pid : Nat) : RegState :=
  match alookup pid s.objs with
  | none => s
  | some sub =>
    let s1 : RegState := { s with
      objs := aset pid { sub with heliusSubId := none, pendingNonNull := true } s.objs }
    { s1 with
      inflight := aset pid Flight.resyncF s1.inflight,
      sent := Req.create pid sub.method sub.params :: s1.sent }

/-- The `.then` handler of a re-subscribe RPC: record the new upstream id and
install the reverse entry.  (Unlike the `subscribe` handler, there is no
`cancelled` check.) -/
def resyncResolve (s : RegState) (pid hid : Nat) : RegState :=
  let s1 : RegState := { s with inflight := aerase pid s.inflight }
  match alookup pid s1.objs with
  | none => s1
  | some sub =>
    let s2 : RegState := { s1 with
      objs := aset pid { sub with heliusSubId := some hid, pendingNonNull := false } s1.objs }
    { s2 with heliusIdToProxy := aset hid pid s2.heliusIdToProxy }

/-- The `.catch` handler of a re-subscribe RPC: log, null the pending handle;
the loop's `try { await } catch` swallows the rethrow. -/
def resyncReject (s : RegState) (pid : Nat) : RegState :=
  let s1 : RegState := { s with inflight := aerase pid s.inflight }
  updObj s1 pid (fun t => { t with pendingNonNull := false })

/-- One loop iteration of `handleReconnected` under sequential completion,
with `out pid` the eventual settlement of the re-subscribe RPC (`some hid` =
resolved with `hid`, `none` = rejected). -/
def resyncOne (out : Nat → Option Nat) (s : RegState) (pid : Nat) : RegState :=
  match alookup pid s.objs with
  | none => s
  | some sub =>
    if sub.timerArmed then
      teardownFn (updObj s pid (fun t => { t with timerArmed := false })) pid
    else
      let s1 : RegState := resyncIssueOne s pid
      match out pid with
      | some hid => resyncResolve s1 pid hid
      | none => resyncReject s1 pid

/-- `handleReconnected` under sequential completion of each re-subscribe RPC:
clear the reverse map, then process every tracked subscription in insertion
order. -/
def handleReconnected (out : Nat → Option Nat) (s : RegState) : RegState :=
  (reconnectClear s).subsKeys.foldl (resyncOne out) (reconnectClear s)

/-! ## Upstream connection manager (`upstream.service.ts`)

`PendingRequest` continuations are not stored; instead each settlement is
appended to a `settled` log (correlation id, outcome), which is what the
caller's promise observes.  `pending` maps correlation id to the timeout
duration registered for it. -/

inductive IdVal where
  | num (n : Nat)
  | strv (s : String)
deriving Repr, DecidableEq

/-- An inbound upstream message, as far as `handleMessage` inspects it:
the `id` field (absent, numeric, or some other type), the `method` field,
a truthy `error` payload if present, and the `result` payload. -/
structure UpMsg where
  idField : Option IdVal
  method : Option String
  errorField : Option Nat
  result : Nat
deriving Repr, DecidableEq

inductive UpOutcome where
  | ok (result : Nat)
  | errUpstream (e : Nat)
  | errTimeout
deriving Repr, DecidableEq

structure UpState where
  /-- `this.ws?.readyState === WebSocket.OPEN`. -/
  connected : Bool
  destroyed : Bool
  rpcId : Nat
  /-- Registered `PendingRequest`s: correlation id → timeout duration (ms). -/
  pending : List (Nat × Nat)
  /-- Settlements delivered to callers, most recent first. -/
  settled : List (Nat × UpOutcome)
  reconnectAttempt : Nat
  /-- Delay of the most recently scheduled reconnect attempt (ms). -/
  lastDelay : Option Nat
deriving Repr, DecidableEq

def initUp : UpState :=
  { connected := false, destroyed := false, rpcId := 1, pending := [],
    settled := [], reconnectAttempt := 0, lastDelay := none }

def REQUEST_TIMEOUT_MS : Nat := 30000

inductive SendRes where
  | notConnected
  | sent (id : Nat)
deriving Repr, DecidableEq

/-- `sendRequest(method, params)` up to returning the promise: reject
immediately when the socket is not open (no id assigned, nothing
registered); otherwise take the next correlation id, register a
`PendingRequest` with the fixed 30 s timeout, and write the request. -/
def sendRequestU (s : UpState) : UpState × SendRes :=
  if s.connected = false then (s, SendRes.notConnected)
  else
    ({ s with
       rpcId := s.rpcId + 1,
       pending := s.pending ++ [(s.rpcId, REQUEST_TIMEOUT_MS)] },
     SendRes.sent s.rpcId)

/-- The timeout callback registered by `sendRequest`: delete the pending
entry and reject with the timeout error.  Guarded on the entry still being
registered (a delivered response clears the timer). -/
def timeoutFireU (s : UpState) (id : Nat) : UpState :=
  if (alookup id s.pending).isSome then
    { s with
      pending := aerase id s.pending,
      settled := (id, UpOutcome.errTimeout) :: s.settled }
  else s

/-- What `handleMessage` does with a message besides mutating state. -/
inductive UpAction where
  | settleCaller (id : Nat) (o : UpOutcome)
  | notif (m : UpMsg)
deriving Repr, DecidableEq

/-- `msg.id != null && typeof msg.id === 'number'`. -/
def numericId : Option IdVal → Option Nat
  | some (IdVal.num n) => some n
  | _ => none

/-- `handleMessage(msg)`: a numeric id matching a pending entry is a
response (cancel the timeout and delete the entry, then settle the caller);
a numeric id with no match falls through the early `return`; otherwise a
message with a string `method` is emitted as a notification event. -/
def handleMessageU (s : UpState) (msg : UpMsg) : UpState × List UpAction :=
  match numericId msg.idField with
  | some id =>
    match alookup id s.pending with
    | some _ =>
      let o : UpOutcome :=
        match msg.errorField with
        | some e => UpOutcome.errUpstream e
        | none => UpOutcome.ok msg.result
      ({ s with
         pending := aerase id s.pending,
         settled := (id, o) :: s.settled },
       [UpAction.settleCaller id o])
    | none => (s, [])
  | none =>
    match msg.method with
    | some _ => (s, [UpAction.notif msg])
    | none => (s, [])

/-- `scheduleReconnect()`: no-op when destroyed; otherwise compute the
backoff delay from the current attempt counter and bump the counter. -/
def scheduleReconnectU (s : UpState) : UpState :=
  if s.destroyed then s
  else
    { s with
      reconnectAttempt := s.reconnectAttempt + 1,
      lastDelay := some (min (1000 * 2 ^ s.reconnectAttempt) 30000) }

inductive UpEv where
  | sendEv
  | msgEv (msg : UpMsg)
  | timeoutEv (id : Nat)
  | openEv
  | closeEv
deriving Repr, DecidableEq

/-- One event-loop turn of the upstream manager. `openEv` is the socket's
`open` handler (reset the attempt counter); `closeEv` is the `close`
handler (drop the transport, schedule reconnect with backoff). -/
def stepU (s : UpState) : UpEv → UpState
  | UpEv.sendEv => (sendRequestU s).1
  | UpEv.msgEv msg => (handleMessageU s msg).1
  | UpEv.timeoutEv id => timeoutFireU s id
  | UpEv.openEv => { s with connected := true, reconnectAttempt := 0 }
  | UpEv.closeEv => scheduleReconnectU { s with connected := false }

/-- `n` consecutive `close` events. -/
def closeIter (s : UpState) : Nat → UpState
  | 0 => s
  | n + 1 => stepU (closeIter s n) UpEv.closeEv

/-- State hygiene maintained by every upstream event (correlation ids are
below the counter, pending timeouts are the fixed 30 s, each correlation id
has at most one pending entry and at most one settlement, and a settled id
is no longer pending). -/
def InvU (s : UpState) : Prop :=
  (∀ pr ∈ s.pending, pr.1 < s.rpcId ∧ pr.2 = REQUEST_TIMEOUT_MS) ∧
  (s.pending.map Prod.fst).Nodup ∧
  (s.settled.map Prod.fst).Nodup ∧
  (∀ e ∈ s.settled, alookup e.1 s.pending = none) ∧
  (∀ e ∈ s.settled, e.1 < s.rpcId)

instance (s : UpState) : Decidable (InvU s) := by
  unfold InvU
  infer_instance

/-! ## Client message validation and gateway
(`validation.util.ts`, `WsProxyGateway.handleRawMessage`) -/

/-- A JSON value as far as validation inspects it (array elements are
opaque tokens: validation never looks inside `params`). -/
inductive JVal where
  | strv (v : String)
  | arr (l : List Nat)
  | other
deriving Repr, DecidableEq

/-- A parsed client payload: either not an object (fails the
`!raw || typeof raw !== 'object'` guard) or an object with the four fields
validation reads. -/
inductive RawMsg where
  | notObj
  | obj (action method params subscriptionId : Option JVal)
deriving Repr, DecidableEq

def VALID_METHODS : List String :=
  ["accountSubscribe", "programSubscribe", "logsSubscribe",
   "slotSubscribe", "signatureSubscribe", "rootSubscribe"]

inductive ClientMessage where
  | subMsg (method : String) (params : List Nat)
  | unsubMsg (subscriptionId : String)
deriving Repr, DecidableEq

/-- `validateClientMessage(raw)`. -/
def validateClientMessage : RawMsg → Option ClientMessage
  | RawMsg.notObj => none
  | RawMsg.obj action method params subscriptionId =>
    if action = some (JVal.strv "subscribe") then
      match method with
      | some (JVal.strv m) =>
        if m ∈ VALID_METHODS then
          match params with
          | none => some (ClientMessage.subMsg m [])
          | some (JVal.arr l) => some (ClientMessage.subMsg m l)
          | some _ => none
        else none
      | _ => none
    else if action = some (JVal.strv "unsubscribe") then
      match subscriptionId with
      | some (JVal.strv sid) => some (ClientMessage.unsubMsg sid)
      | _ => none
    else none

/-- The acceptance condition in the claim's words: an object with action
"subscribe", a whitelisted method string, and params absent or an array; or
an object with action "unsubscribe" and a string subscriptionId. -/
def c9AcceptSpecified : RawMsg → Prop
  | RawMsg.notObj => False
  | RawMsg.obj action method params subscriptionId =>
    (action = some (JVal.strv "subscribe") ∧
      (∃ m, method = some (JVal.strv m) ∧ m ∈ VALID_METHODS) ∧
      (params = none ∨ ∃ l, params = some (JVal.arr l))) ∨
    (action = some (JVal.strv "unsubscribe") ∧
      ∃ sid, subscriptionId = some (JVal.strv sid))

/-- A reply written back to the client by the gateway. -/
inductive GReply where
  | subscribedR (subscriptionId : Nat) (method : String)
  | unsubscribedR (subscriptionId : String)
  | errorR (message : String)
deriving Repr, DecidableEq

structure GOut where
  reply : GReply
  /-- Whether the gateway closed the client connection in this turn. -/
  closedConn : Bool
deriving Repr, DecidableEq

/-- Input to `handleRawMessage` after `JSON.parse`. -/
inductive GIn where
  | badJson
  | parsed (raw : RawMsg)
deriving Repr, DecidableEq

/-- `WsProxyGateway.handleRawMessage`, parameterized by the outcome of the
`subscriptions.subscribe` call (`subOutcome`, the settled value of the
awaited promise mapped through `subscribe`'s return) and of
`subscriptions.unsubscribe` (`unsubOk`).  The handler never closes the
client socket. -/
def handleRawMessage (inp : GIn) (subOutcome : Except Unit Nat) (unsubOk : Bool) : GOut :=
  match inp with
  | GIn.badJson => { reply := GReply.errorR "Invalid JSON", closedConn := false }
  | GIn.parsed raw =>
    match validateClientMessage raw with
    | none => { reply := GReply.errorR "Invalid message format", closedConn := false }
    | some (ClientMessage.subMsg m _) =>
      match subOutcome with
      | Except.ok pid => { reply := GReply.subscribedR pid m, closedConn := false }
      | Except.error _ => { reply := GReply.errorR "Subscribe failed", closedConn := false }
    | some (ClientMessage.unsubMsg sid) =>
      if unsubOk then { reply := GReply.unsubscribedR sid, closedConn := false }
      else { reply := GReply.errorR "Unknown subscription", closedConn := false }

/-! ### Concrete event sequences -/

/-- `true` on create RPC writes with the given method and params. -/
def isCreateMP (m0 : String) (p0 : Nat) : Req → Bool :=
  fun r => match r with
  | Req.create _ m p => m == m0 && p == p0
  | Req.unsubR _ _ => false

/-- `true` on create RPC writes issued for the given proxy id. -/
def isCreateFor (p0 : Nat) : Req → Bool :=
  fun r => match r with
  | Req.create q _ _ => q == p0
  | Req.unsubR _ _ => false

/-- C1 trace: connection 0 subscribes (proxy id 1), the create resolves with
upstream id 7, the upstream reconnects and the resync re-issue for proxy id 1
is in flight, connection 0 subscribes again (proxy id 2, tearing down proxy
id 1 mid-flight), then the resync re-issue resolves with upstream id 9. -/
def c1s1 : RegState := subscribeStep initReg 0 1 "slotSubscribe" 0

def c1s2 : RegState := (resolveCreate c1s1 1 7).1

def c1s3 : RegState := resyncIssueOne (reconnectClear c1s2) 1

def c1s4 : RegState := subscribeStep c1s3 0 2 "slotSubscribe" 0

def c1s5 : RegState := resyncResolve c1s4 1 9

/-- C2 trace: connection 0 subscribes (proxy id 1), the create resolves with
upstream id 7, the client unsubscribes, then resubscribes with identical
method and params (proxy id 2) before the grace timer fires. -/
def c2s1 : RegState := subscribeStep initReg 0 1 "slotSubscribe" 5

def c2s2 : RegState := (resolveCreate c2s1 1 7).1

def c2s3 : RegState := (unsubscribeStep c2s2 1).1

def c2s4 : RegState := subscribeStep c2s3 0 2 "slotSubscribe" 5

/-- Witness state: connection 0 subscribes (proxy id 1), unsubscribes, and
the grace timer fires while the create RPC is still in flight, leaving a
cancelled subscription awaiting its create response. -/
def cancelW1 : RegState := subscribeStep initReg 0 1 "slotSubscribe" 0

def cancelW2 : RegState := (unsubscribeStep cancelW1 1).1

def cancelW3 : RegState := timerFire cancelW2 1

/-- The Subscription object stored under proxy id 1 in `cancelW3`. -/
def cancelWSub : Sub :=
  { proxySubId := 1, connectionId := 0, method := "slotSubscribe", params := 0,
    heliusSubId := none, pendingNonNull := true, cancelled := true, timerArmed := false }

/-- Inbound upstream message refuting C5 as stated: it has a method name
and a numeric id matching no PendingRequest. -/
def c5msg : UpMsg :=
  { idField := some (IdVal.num 5), method := some "accountNotification",
    errorField := none, result := 0 }

/-- Upstream state with one registered PendingRequest (id 1): connect, then
send one request. -/
def c5w1 : UpState := (sendRequestU (stepU initUp UpEv.openEv)).1

/-- Response message matching pending id 1. -/
def c5wmsg : UpMsg :=
  { idField := some (IdVal.num 1), method := none, errorField := none, result := 42 }

/-- Witness registry state for C6: proxy id 1 (connection 0, upstream id 7)
is in its grace period; proxy id 2 (connection 5, upstream id 8) is
active. -/
def c6w1 : RegState := subscribeStep initReg 0 1 "slotSubscribe" 3

def c6w2 : RegState := (resolveCreate c6w1 1 7).1

def c6w3 : RegState := subscribeStep c6w2 5 2 "accountSubscribe" 4

def c6w4 : RegState := (resolveCreate c6w3 2 8).1

def c6w5 : RegState := (unsubscribeStep c6w4 1).1

/-- Resync outcome for the C6 witness: proxy id 2 re-issues successfully
with fresh upstream id 11. -/
def c6out : Nat → Option Nat := fun p => if p = 2 then some 11 else none

/-- The Subscription object stored under proxy id 2 in `c6w5`. -/
def c6wSub2 : Sub :=
  { proxySubId := 2, connectionId := 5, method := "accountSubscribe", params := 4,
    heliusSubId := some 8, pendingNonNull := false, cancelled := false, timerArmed := false }

theorem alookup_aset_self {α : Type} (k : Nat) (v : α) (l : List (Nat × α)) :
    alookup k (aset k v l) = some v := by
  induction l with
  | nil => simp [aset, alookup]
  | cons h t ih =>
    obtain ⟨k1, v1⟩ := h
    by_cases hk : k = k1 <;> simp [aset, alookup, hk, ih]

theorem alookup_aset_ne {α : Type} {k j : Nat} (v : α) (l : List (Nat × α)) (h : k ≠ j) :
    alookup k (aset j v l) = alookup k l := by
  induction l with
  | nil => simp [aset, alookup, h]
  | cons hd t ih =>
    obtain ⟨k1, v1⟩ := hd
    by_cases hj : j = k1
    · subst hj
      simp [aset, alookup, h]
    · by_cases hk : k = k1 <;> simp [aset, alookup, hj, hk, ih]

theorem alookup_aerase_ne {α : Type} {k j : Nat} (l : List (Nat × α)) (h : k ≠ j) :
    alookup k (aerase j l) = alookup k l := by
  induction l with
  | nil => simp [aerase]
  | cons hd t ih =>
    obtain ⟨k1, v1⟩ := hd
    by_cases hj : j = k1
    · subst hj
      simp [aerase, alookup, h]
    · by_cases hk : k = k1 <;> simp [aerase, alookup, hj, hk, ih]

theorem alookup_eq_none_iff {α : Type} (k : Nat) (l : List (Nat × α)) :
    alookup k l = none ↔ k ∉ l.map Prod.fst := by
  induction l with
  | nil => simp [alookup]
  | cons hd t ih =>
    obtain ⟨k1, v1⟩ := hd
    by_cases hk : k = k1 <;> simp [alookup, hk, ih]

theorem alookup_aerase_self_of_nodup {α : Type} (k : Nat) (l : List (Nat × α))
    (h : (l.map Prod.fst).Nodup) : alookup k (aerase k l) = none := by
  induction l with
  | nil => simp [aerase, alookup]
  | cons hd t ih =>
    obtain ⟨k1, v1⟩ := hd
    simp only [List.map_cons, List.nodup_cons] at h
    by_cases hk : k = k1
    · subst hk
      simp only [aerase, if_pos rfl]
      exact (alookup_eq_none_iff k t).2 h.1
    · simp [aerase, alookup, hk, ih h.2]

theorem alookup_aerase_of_none {α : Type} {k : Nat} (j : Nat) (l : List (Nat × α))
    (h : alookup k l = none) : alookup k (aerase j l) = none := by
  induction l with
  | nil => simp [aerase, alookup]
  | cons hd t ih =>
    obtain ⟨k1, v1⟩ := hd
    simp only [alookup] at h
    by_cases hk : k = k1
    · simp [hk] at h
    · simp only [if_neg hk] at h
      by_cases hj : j = k1
      · simpa [aerase, hj] using h
      · simp only [aerase, if_neg hj, alookup, if_neg hk]
        exact ih h

theorem alookup_of_aerase {α : Type} {k j : Nat} {v : α} {l : List (Nat × α)}
    (hnd : (l.map Prod.fst).Nodup) (h : alookup k (aerase j l) = some v) :
    alookup k l = some v := by
  by_cases hk : k = j
  · subst hk
    rw [alookup_aerase_self_of_nodup k l hnd] at h
    exact absurd h (by simp)
  · rwa [alookup_aerase_ne l hk] at h

theorem mem_keys_aset {α : Type} (j k : Nat) (v : α) (l : List (Nat × α)) :
    j ∈ (aset k v l).map Prod.fst ↔ j = k ∨ j ∈ l.map Prod.fst := by
  induction l with
  | nil => simp [aset]
  | cons hd t ih =>
    obtain ⟨k1, v1⟩ := hd
    by_cases hk : k = k1
    · subst hk
      simp only [aset, if_true]
      simp only [List.map_cons, List.mem_cons]
      tauto
    · simp only [aset, if_neg hk, List.map_cons, List.mem_cons, ih]
      tauto

theorem mem_keys_aerase {α : Type} {j k : Nat} {l : List (Nat × α)}
    (h : j ∈ (aerase k l).map Prod.fst) : j ∈ l.map Prod.fst := by
  induction l with
  | nil =>
    simp [aerase] at h
  | cons hd t ih =>
    obtain ⟨k1, v1⟩ := hd
    by_cases hk : k = k1
    · simp only [aerase, if_pos hk] at h
      simp only [List.map_cons, List.mem_cons]
      exact Or.inr h
    · simp only [aerase, if_neg hk, List.map_cons, List.mem_cons] at h ⊢
      rcases h with h | h
      · exact Or.inl h
      · exact Or.inr (ih h)

theorem nodup_keys_aset {α : Type} (k : Nat) (v : α) (l : List (Nat × α))
    (h : (l.map Prod.fst).Nodup) : ((aset k v l).map Prod.fst).Nodup := by
  induction l with
  | nil => simp [aset]
  | cons hd t ih =>
    obtain ⟨k1, v1⟩ := hd
    simp only [List.map_cons, List.nodup_cons] at h
    by_cases hk : k = k1
    · subst hk
      simp only [aset, if_true]
      simp only [List.map_cons, List.nodup_cons]
      exact ⟨h.1, h.2⟩
    · simp only [aset, if_neg hk, List.map_cons, List.nodup_cons]
      refine ⟨?_, ih h.2⟩
      intro hc
      rcases (mem_keys_aset k1 k v t).1 hc with e | e
      · exact hk e.symm
      · exact h.1 e

theorem nodup_keys_aerase {α : Type} (k : Nat) (l : List (Nat × α))
    (h : (l.map Prod.fst).Nodup) : ((aerase k l).map Prod.fst).Nodup := by
  induction l with
  | nil => simp [aerase]
  | cons hd t ih =>
    obtain ⟨k1, v1⟩ := hd
    simp only [List.map_cons, List.nodup_cons] at h
    by_cases hk : k = k1
    · simpa [aerase, hk] using h.2
    · simp only [aerase, if_neg hk, List.map_cons, List.nodup_cons]
      exact ⟨fun hc => h.1 (mem_keys_aerase hc), ih h.2⟩

/-- C1: evaluation of the code at the failing event sequence.  The claim
asserts the three lookup structures stay mutually consistent under every
operation sequence; after the sequence `c1s5` the reverse map holds the
entry `9 ↦ 1` although proxy id 1 maps to no Subscription in the forward
map (it was torn down, flagged cancelled, while its reconnect re-issue was
in flight; the re-issue's `.then` handler installs the reverse entry
without a cancellation check), and no upstream unsubscribe RPC is ever
written for upstream id 9. -/
theorem c1_stale_reverse_entry_after_resync :
    alookup 9 c1s5.heliusIdToProxy = some 1 ∧
    getSub c1s5 1 = none ∧
    1 ∉ c1s5.subsKeys ∧
    (alookup 1 c1s5.objs).map Sub.cancelled = some true ∧
    c1s5.sent.countP (fun r => r == Req.unsubR "slotUnsubscribe" 9) = 0 := by
  decide

/-- C2: evaluation of the code at the failing event sequence.  The claim
asserts that a subscribe–unsubscribe–resubscribe sequence with identical
method and params inside the grace window resurrects the original
Subscription (grace timer cancelled) with no duplicate upstream create.
In the code, `unsubscribe` deletes the connection entry, so the
resubscribe finds no existing subscription: after `c2s4` both proxy ids 1
and 2 are in the registry, the original's grace timer is still armed, and
a second upstream create RPC with the identical method and params has been
written. -/
theorem c2_resubscribe_does_not_resurrect :
    (unsubscribeStep c2s2 1).2 = true ∧
    c2s4.subsKeys = [1, 2] ∧
    c2s4.sent.countP (isCreateMP "slotSubscribe" 5) = 2 ∧
    (alookup 1 c2s4.objs).map Sub.timerArmed = some true ∧
    alookup 0 c2s4.connToSub = some 2 := by
  decide

/-- C3: a subscription cancelled while its create RPC is in flight is fully
cleaned up when the RPC resolves: exactly one upstream teardown RPC is
written for the arriving upstream id, the reverse entry is never installed
(the reverse map is unchanged), and no entry for the cancelled proxy id
survives in the forward, reverse, or connection lookup. -/
theorem c3_cancelled_create_resolution (s : RegState) (pid hid : Nat) (sub : Sub) (um : String)
    (hobj : alookup pid s.objs = some sub)
    (hcan : sub.cancelled = true)
    (hum : UNSUB_METHOD sub.method = some um)
    (hfl : alookup pid s.inflight = some Flight.createF)
    (hfwd : pid ∉ s.subsKeys)
    (hrev : pid ∉ s.heliusIdToProxy.map Prod.snd)
    (hconn : pid ∉ s.connToSub.map Prod.snd) :
    (resolveCreate s pid hid).1.sent = Req.unsubR um hid :: s.sent ∧
    (resolveCreate s pid hid).1.heliusIdToProxy = s.heliusIdToProxy ∧
    (resolveCreate s pid hid).1.inflight = aerase pid s.inflight ∧
    getSub (resolveCreate s pid hid).1 pid = none ∧
    pid ∉ (resolveCreate s pid hid).1.heliusIdToProxy.map Prod.snd ∧
    pid ∉ (resolveCreate s pid hid).1.connToSub.map Prod.snd := by
  simp only [resolveCreate, hobj, hcan, if_true, hum, getSub]
  simp [hfwd, hrev, hconn]

/-- C3 witness: the theorem applied to the concrete cancelled-in-flight
state `cancelW3` with upstream id 7. -/
theorem c3_cancelled_create_resolution_witness :
    (alookup 1 cancelW3.objs = some cancelWSub ∧
     cancelWSub.cancelled = true ∧
     UNSUB_METHOD cancelWSub.method = some "slotUnsubscribe" ∧
     alookup 1 cancelW3.inflight = some Flight.createF ∧
     1 ∉ cancelW3.subsKeys ∧
     1 ∉ cancelW3.heliusIdToProxy.map Prod.snd ∧
     1 ∉ cancelW3.connToSub.map Prod.snd) ∧
    ((resolveCreate cancelW3 1 7).1.sent = Req.unsubR "slotUnsubscribe" 7 :: cancelW3.sent ∧
     (resolveCreate cancelW3 1 7).1.heliusIdToProxy = cancelW3.heliusIdToProxy ∧
     (resolveCreate cancelW3 1 7).1.inflight = aerase 1 cancelW3.inflight ∧
     getSub (resolveCreate cancelW3 1 7).1 1 = none ∧
     1 ∉ (resolveCreate cancelW3 1 7).1.heliusIdToProxy.map Prod.snd ∧
     1 ∉ (resolveCreate cancelW3 1 7).1.connToSub.map Prod.snd) :=
  ⟨by decide,
   c3_cancelled_create_resolution cancelW3 1 7 cancelWSub "slotUnsubscribe"
     (by decide) (by decide) (by decide) (by decide) (by decide) (by decide) (by decide)⟩

/-- C7: `unsubscribe` returns `false` for an unknown proxy id leaving the
state untouched; for a known id it returns `true`, removes the connection
entry immediately, arms the grace timer on the Subscription, makes no
upstream RPC write, and leaves the forward and reverse entries in place. -/
theorem c7_unsubscribe_contract (s : RegState) (pid : Nat) (sub : Sub) :
    (getSub s pid = none → unsubscribeStep s pid = (s, false)) ∧
    (getSub s pid = some sub →
      (unsubscribeStep s pid).2 = true ∧
      (unsubscribeStep s pid).1.connToSub = aerase sub.connectionId s.connToSub ∧
      getSub (unsubscribeStep s pid).1 pid = some { sub with timerArmed := true } ∧
      (unsubscribeStep s pid).1.subsKeys = s.subsKeys ∧
      (unsubscribeStep s pid).1.heliusIdToProxy = s.heliusIdToProxy ∧
      (unsubscribeStep s pid).1.sent = s.sent) := by
  constructor
  · intro h
    simp [unsubscribeStep, h]
  · intro h
    have hmem : pid ∈ s.subsKeys := by
      by_contra hm
      simp [getSub, hm] at h
    have hobj : alookup pid s.objs = some sub := by
      simpa [getSub, hmem] using h
    simp only [unsubscribeStep, h, updObj, hobj]
    simp [getSub, hmem, alookup_aset_self]

/-- C7 witness: the theorem applied to the state `c2s2` (a live
subscription with upstream id 7 under proxy id 1). -/
theorem c7_unsubscribe_contract_witness :
    (getSub c2s2 1 =
      some { proxySubId := 1, connectionId := 0, method := "slotSubscribe", params := 5,
             heliusSubId := some 7, pendingNonNull := false, cancelled := false,
             timerArmed := false }) ∧
    ((unsubscribeStep c2s2 1).2 = true ∧
     (unsubscribeStep c2s2 1).1.connToSub = aerase 0 c2s2.connToSub ∧
     getSub (unsubscribeStep c2s2 1).1 1 =
       some { proxySubId := 1, connectionId := 0, method := "slotSubscribe", params := 5,
              heliusSubId := some 7, pendingNonNull := false, cancelled := false,
              timerArmed := true } ∧
     (unsubscribeStep c2s2 1).1.subsKeys = c2s2.subsKeys ∧
     (unsubscribeStep c2s2 1).1.heliusIdToProxy = c2s2.heliusIdToProxy ∧
     (unsubscribeStep c2s2 1).1.sent = c2s2.sent) :=
  ⟨by decide,
   (c7_unsubscribe_contract c2s2 1
     { proxySubId := 1, connectionId := 0, method := "slotSubscribe", params := 5,
       heliusSubId := some 7, pendingNonNull := false, cancelled := false,
       timerArmed := false }).2 (by decide)⟩

/-- C10: when a cancelled subscription's create RPC resolves successfully,
the `.then` handler returns normally, so the `subscribe` call still
resolves with the proxy id and the gateway replies `subscribed` — for a
subscription that no longer exists in any lookup structure. -/
theorem c10_cancelled_subscribe_still_replies (s : RegState) (pid hid : Nat) (sub : Sub)
    (hobj : alookup pid s.objs = some sub)
    (hcan : sub.cancelled = true)
    (hfwd : pid ∉ s.subsKeys)
    (hrev : pid ∉ s.heliusIdToProxy.map Prod.snd)
    (hconn : pid ∉ s.connToSub.map Prod.snd) :
    (resolveCreate s pid hid).2 = Except.ok hid ∧
    subscribeReturn pid (resolveCreate s pid hid).2 = Except.ok pid ∧
    (∀ raw l, validateClientMessage raw = some (ClientMessage.subMsg sub.method l) →
      handleRawMessage (GIn.parsed raw) (subscribeReturn pid (resolveCreate s pid hid).2) true
        = { reply := GReply.subscribedR pid sub.method, closedConn := false }) ∧
    getSub (resolveCreate s pid hid).1 pid = none ∧
    pid ∉ (resolveCreate s pid hid).1.heliusIdToProxy.map Prod.snd ∧
    pid ∉ (resolveCreate s pid hid).1.connToSub.map Prod.snd := by
  have h2 : (resolveCreate s pid hid).2 = Except.ok hid := by
    simp only [resolveCreate, hobj, hcan, if_true]
    match humc : UNSUB_METHOD sub.method with
    | some um => rfl
    | none => rfl
  have hstate : (resolveCreate s pid hid).1.heliusIdToProxy = s.heliusIdToProxy ∧
      (resolveCreate s pid hid).1.subsKeys = s.subsKeys ∧
      (resolveCreate s pid hid).1.connToSub = s.connToSub := by
    simp only [resolveCreate, hobj, hcan, if_true]
    match humc : UNSUB_METHOD sub.method with
    | some um => exact ⟨rfl, rfl, rfl⟩
    | none => exact ⟨rfl, rfl, rfl⟩
  refine ⟨h2, ?_, ?_, ?_, ?_, ?_⟩
  · rw [h2]; rfl
  · intro raw l hval
    rw [h2]
    simp [handleRawMessage, hval, subscribeReturn]
  · simp [getSub, hstate.2.1, hfwd]
  · rw [hstate.1]; exact hrev
  · rw [hstate.2.2]; exact hconn

/-- C10 witness: the theorem applied to the concrete cancelled-in-flight
state `cancelW3`, with the client's raw subscribe message. -/
theorem c10_cancelled_subscribe_still_replies_witness :
    (alookup 1 cancelW3.objs = some cancelWSub ∧
     cancelWSub.cancelled = true ∧
     1 ∉ cancelW3.subsKeys ∧
     1 ∉ cancelW3.heliusIdToProxy.map Prod.snd ∧
     1 ∉ cancelW3.connToSub.map Prod.snd) ∧
    ((resolveCreate cancelW3 1 7).2 = Except.ok 7 ∧
     subscribeReturn 1 (resolveCreate cancelW3 1 7).2 = Except.ok 1 ∧
     (∀ raw l, validateClientMessage raw = some (ClientMessage.subMsg cancelWSub.method l) →
       handleRawMessage (GIn.parsed raw) (subscribeReturn 1 (resolveCreate cancelW3 1 7).2) true
         = { reply := GReply.subscribedR 1 cancelWSub.method, closedConn := false }) ∧
     getSub (resolveCreate cancelW3 1 7).1 1 = none ∧
     1 ∉ (resolveCreate cancelW3 1 7).1.heliusIdToProxy.map Prod.snd ∧
     1 ∉ (resolveCreate cancelW3 1 7).1.connToSub.map Prod.snd) :=
  ⟨by decide,
   c10_cancelled_subscribe_still_replies cancelW3 1 7 cancelWSub
     (by decide) (by decide) (by decide) (by decide) (by decide)⟩

/-- C9: `validateClientMessage` accepts a raw message exactly under the
claim's condition (object with action "subscribe", whitelisted method
string, params absent or an array — absent defaulting to `[]` — or object
with action "unsubscribe" and a string subscriptionId), and every failing
message — malformed JSON included — draws an error reply from the gateway
without the connection being closed. -/
theorem c9_validation_contract (raw : RawMsg) (subOut : Except Unit Nat) (unsubOk : Bool)
    (m : String) (subscriptionId : Option JVal) :
    ((validateClientMessage raw).isSome ↔ c9AcceptSpecified raw) ∧
    (handleRawMessage GIn.badJson subOut unsubOk
      = { reply := GReply.errorR "Invalid JSON", closedConn := false }) ∧
    (validateClientMessage raw = none →
      handleRawMessage (GIn.parsed raw) subOut unsubOk
        = { reply := GReply.errorR "Invalid message format", closedConn := false }) ∧
    (m ∈ VALID_METHODS →
      validateClientMessage
        (RawMsg.obj (some (JVal.strv "subscribe")) (some (JVal.strv m)) none subscriptionId)
        = some (ClientMessage.subMsg m [])) := by
  refine ⟨?_, rfl, ?_, ?_⟩
  · cases raw with
    | notObj => simp [validateClientMessage, c9AcceptSpecified]
    | obj action method params sid =>
      by_cases ha : action = some (JVal.strv "subscribe")
      · subst ha
        simp only [validateClientMessage, c9AcceptSpecified, if_pos rfl]
        cases method with
        | none => simp
        | some mv =>
          cases mv with
          | strv mstr =>
            by_cases hm : mstr ∈ VALID_METHODS
            · simp only [hm, if_pos]
              cases params with
              | none => simp [hm]
              | some pv => cases pv <;> simp [hm]
            · simp [hm]
          | arr l => simp
          | other => simp
      · by_cases hu : action = some (JVal.strv "unsubscribe")
        · subst hu
          simp only [validateClientMessage, c9AcceptSpecified]
          cases sid with
          | none => simp
          | some sv => cases sv <;> simp
        · simp [validateClientMessage, c9AcceptSpecified, ha, hu]
  · intro h
    simp [handleRawMessage, h]
  · intro hm
    simp [validateClientMessage, hm]

/-- C9 witness: the theorem applied to the non-object raw message and the
method "slotSubscribe". -/
theorem c9_validation_contract_witness :
    (validateClientMessage RawMsg.notObj = none ∧ "slotSubscribe" ∈ VALID_METHODS) ∧
    (handleRawMessage (GIn.parsed RawMsg.notObj) (Except.ok 1) true
      = { reply := GReply.errorR "Invalid message format", closedConn := false }) ∧
    validateClientMessage
      (RawMsg.obj (some (JVal.strv "subscribe")) (some (JVal.strv "slotSubscribe")) none none)
      = some (ClientMessage.subMsg "slotSubscribe" []) :=
  ⟨by decide,
   (c9_validation_contract RawMsg.notObj (Except.ok 1) true "slotSubscribe" none).2.2.1
     (by decide),
   (c9_validation_contract RawMsg.notObj (Except.ok 1) true "slotSubscribe" none).2.2.2
     (by decide)⟩

/-- C5 counterexample: a message with a method name and an id matching no
PendingRequest is NOT forwarded as a notification event — `handleMessage`
returns at the numeric-id branch, emitting nothing — contradicting the
claim's "method name but no matching id → forwarded verbatim". -/
theorem c5_unmatched_id_with_method_not_forwarded :
    (c5msg.method).isSome = true ∧
    numericId c5msg.idField = some 5 ∧
    alookup 5 initUp.pending = none ∧
    handleMessageU initUp c5msg = (initUp, []) ∧
    (handleMessageU initUp c5msg).2 ≠ [UpAction.notif c5msg] := by
  decide

/-- C5 (amended): a message with a numeric id matching a PendingRequest is
a response — the pending entry is removed (timeout cancelled) in the same
turn that settles the caller, so no double resolution or timeout race is
possible; a message with a numeric id matching no PendingRequest is
ignored even if it carries a method name; a message without a numeric id
but with a method name is forwarded verbatim as a notification event. -/
theorem c5_message_classification (s : UpState) (msg : UpMsg) (id : Nat)
    (hInv : InvU s) :
    (∀ t, numericId msg.idField = some id → alookup id s.pending = some t →
      (handleMessageU s msg).1.pending = aerase id s.pending ∧
      alookup id (handleMessageU s msg).1.pending = none ∧
      (handleMessageU s msg).2 =
        [UpAction.settleCaller id
          (match msg.errorField with
           | some e => UpOutcome.errUpstream e
           | none => UpOutcome.ok msg.result)] ∧
      (handleMessageU s msg).1.settled =
        (id, match msg.errorField with
             | some e => UpOutcome.errUpstream e
             | none => UpOutcome.ok msg.result) :: s.settled) ∧
    (numericId msg.idField = some id → alookup id s.pending = none →
      handleMessageU s msg = (s, [])) ∧
    (numericId msg.idField = none → (msg.method).isSome →
      handleMessageU s msg = (s, [UpAction.notif msg])) ∧
    (numericId msg.idField = none → msg.method = none →
      handleMessageU s msg = (s, [])) := by
  refine ⟨?_, ?_, ?_, ?_⟩
  · intro t hid hpend
    simp only [handleMessageU, hid, hpend]
    refine ⟨by simp, ?_, by simp, by simp⟩
    exact alookup_aerase_self_of_nodup id s.pending hInv.2.1
  · intro hid hpend
    simp [handleMessageU, hid, hpend]
  · intro hid hm
    rcases Option.isSome_iff_exists.1 hm with ⟨mm, hmm⟩
    simp [handleMessageU, hid, hmm]
  · intro hid hm
    simp [handleMessageU, hid, hm]

/-- C5 witness: the amended theorem applied to a state with pending id 1
and a matching response. -/
theorem c5_message_classification_witness :
    (InvU c5w1 ∧ numericId c5wmsg.idField = some 1 ∧
     alookup 1 c5w1.pending = some REQUEST_TIMEOUT_MS) ∧
    ((handleMessageU c5w1 c5wmsg).1.pending = aerase 1 c5w1.pending ∧
     alookup 1 (handleMessageU c5w1 c5wmsg).1.pending = none ∧
     (handleMessageU c5w1 c5wmsg).2 = [UpAction.settleCaller 1 (UpOutcome.ok 42)] ∧
     (handleMessageU c5w1 c5wmsg).1.settled = (1, UpOutcome.ok 42) :: c5w1.settled) :=
  ⟨by decide,
   (c5_message_classification c5w1 c5wmsg 1 (by decide)).1 REQUEST_TIMEOUT_MS
     (by decide) (by decide)⟩

/-- C8: after `n` consecutive failed connections since the last successful
connect, the scheduled reconnect delay is `min(1000·2^n, 30000)` ms, and
the attempt counter is reset to zero only by a successful open. -/
theorem c8_backoff_schedule (n : Nat) (s : UpState) (e : UpEv)
    (hdes : s.destroyed = false) :
    ((closeIter s n).destroyed = false ∧
     (closeIter s n).reconnectAttempt = s.reconnectAttempt + n) ∧
    (s.reconnectAttempt = n →
      (stepU s UpEv.closeEv).lastDelay = some (min (1000 * 2 ^ n) 30000)) ∧
    ((stepU s e).reconnectAttempt = 0 →
      e = UpEv.openEv ∨ (s.reconnectAttempt = 0 ∧ e ≠ UpEv.closeEv)) ∧
    (stepU s UpEv.openEv).reconnectAttempt = 0 := by
  refine ⟨?_, ?_, ?_, rfl⟩
  · induction n with
    | zero => exact ⟨hdes, rfl⟩
    | succ k ih =>
      obtain ⟨hd, ha⟩ := ih
      simp only [closeIter, stepU, scheduleReconnectU, hd]
      refine ⟨by simp, ?_⟩
      simp only [ha]
      simp
      omega
  · intro hn
    simp [stepU, scheduleReconnectU, hdes, hn]
  · intro h0
    cases e with
    | sendEv =>
      right
      refine ⟨?_, by simp⟩
      simp only [stepU, sendRequestU] at h0
      by_cases hc : s.connected = false
      · simpa [hc] using h0
      · simpa [hc] using h0
    | msgEv msg =>
      right
      refine ⟨?_, by simp⟩
      simp only [stepU, handleMessageU] at h0
      cases hnid : numericId msg.idField with
      | none =>
        cases hmm : msg.method with
        | none => simp [hnid, hmm] at h0; exact h0
        | some mm => simp [hnid, hmm] at h0; exact h0
      | some idv =>
        cases hp : alookup idv s.pending with
        | none => simp [hnid, hp] at h0; exact h0
        | some t => simp [hnid, hp] at h0; exact h0
    | timeoutEv id =>
      right
      refine ⟨?_, by simp⟩
      simp only [stepU, timeoutFireU] at h0
      by_cases hp : (alookup id s.pending).isSome
      · simpa [hp] using h0
      · simpa [hp] using h0
    | openEv => exact Or.inl rfl
    | closeEv =>
      simp only [stepU, scheduleReconnectU, hdes] at h0
      simp at h0

/-- C8 witness: the theorem applied to a freshly opened connection and two
consecutive failures. -/
theorem c8_backoff_schedule_witness :
    ((stepU initUp UpEv.openEv).destroyed = false ∧
     (closeIter (stepU initUp UpEv.openEv) 2).reconnectAttempt = 2) ∧
    (stepU (closeIter (stepU initUp UpEv.openEv) 2) UpEv.closeEv).lastDelay
      = some (min (1000 * 2 ^ 2) 30000) :=
  ⟨⟨by decide,
    by simpa [stepU, initUp] using
      (c8_backoff_schedule 2 (stepU initUp UpEv.openEv) UpEv.openEv (by decide)).1.2⟩,
   (c8_backoff_schedule 2 (closeIter (stepU initUp UpEv.openEv) 2) UpEv.openEv
     (by decide)).2.1 (by decide)⟩

theorem alookup_mem {α : Type} {k : Nat} {v : α} {l : List (Nat × α)}
    (h : alookup k l = some v) : (k, v) ∈ l := by
  induction l with
  | nil => simp [alookup] at h
  | cons hd t ih =>
    obtain ⟨k1, v1⟩ := hd
    by_cases hk : k = k1
    · simp only [alookup, if_pos hk] at h
      injection h with h
      subst hk
      subst h
      exact List.mem_cons_self _ _
    · simp only [alookup, if_neg hk] at h
      exact List.mem_cons_of_mem _ (ih h)

theorem mem_of_mem_aerase {α : Type} {k : Nat} {pr : Nat × α} {l : List (Nat × α)}
    (h : pr ∈ aerase k l) : pr ∈ l := by
  induction l with
  | nil =>
    simp [aerase] at h
  | cons hd t ih =>
    obtain ⟨k1, v1⟩ := hd
    by_cases hk : k = k1
    · simp only [aerase, if_pos hk] at h
      exact List.mem_cons_of_mem _ h
    · simp only [aerase, if_neg hk, List.mem_cons] at h
      rcases h with h | h
      · exact h ▸ List.mem_cons_self _ _
      · exact List.mem_cons_of_mem _ (ih h)

theorem alookup_append_right {α : Type} {k : Nat} (l1 l2 : List (Nat × α))
    (h : alookup k l1 = none) : alookup k (l1 ++ l2) = alookup k l2 := by
  induction l1 with
  | nil => simp
  | cons hd t ih =>
    obtain ⟨k1, v1⟩ := hd
    simp only [alookup] at h
    by_cases hk : k = k1
    · simp [hk] at h
    · simp only [if_neg hk] at h
      simp only [List.cons_append, alookup, if_neg hk]
      exact ih h

theorem InvU_congr {s t : UpState} (hp : t.pending = s.pending) (hs : t.settled = s.settled)
    (hr : t.rpcId = s.rpcId) (h : InvU s) : InvU t := by
  unfold InvU at h ⊢
  rw [hp, hs, hr]
  exact h

theorem InvU_settle (s : UpState) (id t : Nat) (o : UpOutcome)
    (hp : alookup id s.pending = some t) (hInv : InvU s) :
    InvU { s with pending := aerase id s.pending, settled := (id, o) :: s.settled } := by
  obtain ⟨hlt, hpnd, hsnd, hsp, hslt⟩ := hInv
  refine ⟨?_, ?_, ?_, ?_, ?_⟩
  · intro pr hpr
    exact hlt pr (mem_of_mem_aerase hpr)
  · exact nodup_keys_aerase id s.pending hpnd
  · simp only [List.map_cons, List.nodup_cons]
    refine ⟨?_, hsnd⟩
    intro hc
    rcases List.mem_map.1 hc with ⟨pr, hpr, hfst⟩
    have h2 := hsp pr hpr
    rw [hfst] at h2
    rw [h2] at hp
    exact Option.noConfusion hp
  · intro e he
    rcases List.mem_cons.1 he with he | he
    · subst he
      simpa using alookup_aerase_self_of_nodup id s.pending hpnd
    · exact alookup_aerase_of_none id s.pending (hsp e he)
  · intro e he
    rcases List.mem_cons.1 he with he | he
    · subst he
      exact (hlt (id, t) (alookup_mem hp)).1
    · exact hslt e he

theorem InvU_step (s : UpState) (e : UpEv) (hInv : InvU s) : InvU (stepU s e) := by
  cases e with
  | sendEv =>
    show InvU (sendRequestU s).1
    by_cases hc : s.connected = false
    · have h1 : (sendRequestU s).1 = s := by simp [sendRequestU, hc]
      rw [h1]
      exact hInv
    · obtain ⟨hlt, hpnd, hsnd, hsp, hslt⟩ := hInv
      have h1 : (sendRequestU s).1 =
          { s with rpcId := s.rpcId + 1,
                   pending := s.pending ++ [(s.rpcId, REQUEST_TIMEOUT_MS)] } := by
        simp [sendRequestU, hc]
      rw [h1]
      unfold InvU
      dsimp only
      refine ⟨?_, ?_, hsnd, ?_, ?_⟩
      · intro pr hpr
        rcases List.mem_append.1 hpr with h | h
        · have h2 := hlt pr h
          exact ⟨by omega, h2.2⟩
        · simp only [List.mem_singleton] at h
          subst h
          exact ⟨by omega, rfl⟩
      · rw [List.map_append, List.nodup_append]
        refine ⟨hpnd, by simp, ?_⟩
        intro a ha hb
        simp only [List.map_cons, List.map_nil, List.mem_singleton] at hb
        subst hb
        rcases List.mem_map.1 ha with ⟨pr, hpr, hfst⟩
        have h2 := (hlt pr hpr).1
        omega
      · intro ent hent
        rw [alookup_append_right _ _ (hsp ent hent)]
        have h2 := hslt ent hent
        simp only [alookup]
        rw [if_neg (by omega)]
      · intro ent hent
        have h2 := hslt ent hent
        omega
  | msgEv msg =>
    show InvU (handleMessageU s msg).1
    cases hnid : numericId msg.idField with
    | none =>
      cases hmm : msg.method with
      | none =>
        have h1 : (handleMessageU s msg).1 = s := by simp [handleMessageU, hnid, hmm]
        rw [h1]
        exact hInv
      | some mm =>
        have h1 : (handleMessageU s msg).1 = s := by simp [handleMessageU, hnid, hmm]
        rw [h1]
        exact hInv
    | some mid =>
      cases hp : alookup mid s.pending with
      | none =>
        have h1 : (handleMessageU s msg).1 = s := by simp [handleMessageU, hnid, hp]
        rw [h1]
        exact hInv
      | some t =>
        have h1 : (handleMessageU s msg).1 =
            { s with pending := aerase mid s.pending,
                     settled := (mid,
                       match msg.errorField with
                       | some e => UpOutcome.errUpstream e
                       | none => UpOutcome.ok msg.result) :: s.settled } := by
          simp [handleMessageU, hnid, hp]
        rw [h1]
        exact InvU_settle s mid t _ hp hInv
  | timeoutEv id =>
    show InvU (timeoutFireU s id)
    cases hp : alookup id s.pending with
    | none =>
      have h1 : timeoutFireU s id = s := by simp [timeoutFireU, hp]
      rw [h1]
      exact hInv
    | some t =>
      have h1 : timeoutFireU s id =
          { s with pending := aerase id s.pending,
                   settled := (id, UpOutcome.errTimeout) :: s.settled } := by
        simp [timeoutFireU, hp]
      rw [h1]
      exact InvU_settle s id t _ hp hInv
  | openEv => exact InvU_congr rfl rfl rfl hInv
  | closeEv =>
    show InvU (scheduleReconnectU { s with connected := false })
    by_cases hd : s.destroyed
    · have h1 : scheduleReconnectU { s with connected := false }
          = { s with connected := false } := by
        simp [scheduleReconnectU, hd]
      rw [h1]
      exact InvU_congr rfl rfl rfl hInv
    · have h1 : scheduleReconnectU { s with connected := false }
          = { s with connected := false,
                     reconnectAttempt := s.reconnectAttempt + 1,
                     lastDelay := some (min (1000 * 2 ^ s.reconnectAttempt) 30000) } := by
        simp [scheduleReconnectU, hd]
      rw [h1]
      exact InvU_congr rfl rfl rfl hInv

/-- C4: `sendRequest` rejects with the not-connected error when the socket
is not open, assigning no correlation id and registering nothing;
otherwise it assigns the next correlation id and registers a
PendingRequest with the fixed 30 s timeout.  The timeout settles the
caller with the timeout error and removes the pending entry, after which
a matching response settles nothing; a matching response settles the
caller with the upstream error if the response carries an error payload
and with its result field otherwise, removing the pending entry.  Every
upstream event preserves the state hygiene `InvU`, under which each
correlation id settles at most once. -/
theorem c4_sendRequest_contract (s : UpState) (id er : Nat) (e : UpEv) (msg : UpMsg)
    (hInv : InvU s) :
    InvU initUp ∧
    (s.connected = false → sendRequestU s = (s, SendRes.notConnected)) ∧
    (s.connected = true →
      (sendRequestU s).2 = SendRes.sent s.rpcId ∧
      (sendRequestU s).1.rpcId = s.rpcId + 1 ∧
      alookup s.rpcId s.pending = none ∧
      alookup s.rpcId (sendRequestU s).1.pending = some REQUEST_TIMEOUT_MS) ∧
    ((alookup id s.pending).isSome →
      (timeoutFireU s id).settled = (id, UpOutcome.errTimeout) :: s.settled ∧
      alookup id (timeoutFireU s id).pending = none ∧
      (numericId msg.idField = some id →
        handleMessageU (timeoutFireU s id) msg = (timeoutFireU s id, []))) ∧
    (∀ t, numericId msg.idField = some id → alookup id s.pending = some t →
      (msg.errorField = some er →
        (handleMessageU s msg).2 = [UpAction.settleCaller id (UpOutcome.errUpstream er)]) ∧
      (msg.errorField = none →
        (handleMessageU s msg).2 = [UpAction.settleCaller id (UpOutcome.ok msg.result)]) ∧
      (handleMessageU s msg).1.pending = aerase id s.pending) ∧
    InvU (stepU s e) ∧
    (∀ q, List.count q (s.settled.map Prod.fst) ≤ 1) := by
  obtain ⟨hlt, hpnd, hsnd, hsp, hslt⟩ := hInv
  refine ⟨by decide, ?_, ?_, ?_, ?_,
    InvU_step s e ⟨hlt, hpnd, hsnd, hsp, hslt⟩,
    fun q => List.nodup_iff_count_le_one.1 hsnd q⟩
  · intro hc
    simp [sendRequestU, hc]
  · intro hc
    have hnone : alookup s.rpcId s.pending = none := by
      rw [alookup_eq_none_iff]
      intro hmem
      rcases List.mem_map.1 hmem with ⟨pr, hpr, hfst⟩
      have h2 := (hlt pr hpr).1
      omega
    have hc2 : ¬ s.connected = false := by simp [hc]
    refine ⟨by simp [sendRequestU, hc2], by simp [sendRequestU, hc2], hnone, ?_⟩
    have h1 : (sendRequestU s).1.pending = s.pending ++ [(s.rpcId, REQUEST_TIMEOUT_MS)] := by
      simp [sendRequestU, hc2]
    rw [h1, alookup_append_right _ _ hnone]
    simp [alookup]
  · intro hp
    rcases Option.isSome_iff_exists.1 hp with ⟨t, ht⟩
    have h1 : timeoutFireU s id =
        { s with pending := aerase id s.pending,
                 settled := (id, UpOutcome.errTimeout) :: s.settled } := by
      simp [timeoutFireU, ht]
    refine ⟨by rw [h1], ?_, ?_⟩
    · rw [h1]
      exact alookup_aerase_self_of_nodup id s.pending hpnd
    · intro hid
      have h2 : alookup id (timeoutFireU s id).pending = none := by
        rw [h1]
        exact alookup_aerase_self_of_nodup id s.pending hpnd
      simp [handleMessageU, hid, h2]
  · intro t hid ht
    refine ⟨?_, ?_, ?_⟩
    · intro herr
      simp [handleMessageU, hid, ht, herr]
    · intro herr
      simp [handleMessageU, hid, ht, herr]
    · simp [handleMessageU, hid, ht]

/-- C4 witness: the theorem applied to the opened-and-one-request state
`c5w1` and its matching response. -/
theorem c4_sendRequest_contract_witness :
    (InvU c5w1 ∧ c5w1.connected = true ∧ (alookup 1 c5w1.pending).isSome) ∧
    ((sendRequestU c5w1).2 = SendRes.sent c5w1.rpcId ∧
     (sendRequestU c5w1).1.rpcId = c5w1.rpcId + 1 ∧
     alookup c5w1.rpcId c5w1.pending = none ∧
     alookup c5w1.rpcId (sendRequestU c5w1).1.pending = some REQUEST_TIMEOUT_MS) ∧
    ((timeoutFireU c5w1 1).settled = (1, UpOutcome.errTimeout) :: c5w1.settled ∧
     alookup 1 (timeoutFireU c5w1 1).pending = none ∧
     (numericId c5wmsg.idField = some 1 →
       handleMessageU (timeoutFireU c5w1 1) c5wmsg = (timeoutFireU c5w1 1, []))) :=
  ⟨by decide,
   (c4_sendRequest_contract c5w1 1 0 UpEv.openEv c5wmsg (by decide)).2.2.1 (by decide),
   (c4_sendRequest_contract c5w1 1 0 UpEv.openEv c5wmsg (by decide)).2.2.2.1 (by decide)⟩

/-! ### Locality lemmas for the reconnect resync fold -/

theorem teardownFn_objs_other (t : RegState) {p q : Nat} (hpq : p ≠ q) :
    alookup p (teardownFn t q).objs = alookup p t.objs := by
  cases hq : alookup q t.objs with
  | none => simp [teardownFn, hq]
  | some sub0 =>
    by_cases hp2 : sub0.pendingNonNull = true
    · simp [teardownFn, hq, hp2, alookup_aset_ne _ _ hpq]
    · cases hh : sub0.heliusSubId with
      | none => simp [teardownFn, hq, hp2, hh, alookup_aset_ne _ _ hpq]
      | some hid =>
        cases hu : UNSUB_METHOD sub0.method with
        | none => simp [teardownFn, hq, hp2, hh, hu, alookup_aset_ne _ _ hpq]
        | some um => simp [teardownFn, hq, hp2, hh, hu, alookup_aset_ne _ _ hpq]

theorem teardownFn_mem_subsKeys_other (t : RegState) {p q : Nat} (hpq : p ≠ q) :
    (p ∈ (teardownFn t q).subsKeys ↔ p ∈ t.subsKeys) := by
  cases hq : alookup q t.objs with
  | none => simp [teardownFn, hq]
  | some sub0 =>
    by_cases hp2 : sub0.pendingNonNull = true
    · simp [teardownFn, hq, hp2, List.mem_erase_of_ne hpq]
    · cases hh : sub0.heliusSubId with
      | none => simp [teardownFn, hq, hp2, hh, List.mem_erase_of_ne hpq]
      | some hid =>
        cases hu : UNSUB_METHOD sub0.method with
        | none => simp [teardownFn, hq, hp2, hh, hu, List.mem_erase_of_ne hpq]
        | some um => simp [teardownFn, hq, hp2, hh, hu, List.mem_erase_of_ne hpq]

theorem teardownFn_subsKeys_nodup (t : RegState) (q : Nat) (h : t.subsKeys.Nodup) :
    (teardownFn t q).subsKeys.Nodup := by
  cases hq : alookup q t.objs with
  | none => simpa [teardownFn, hq] using h
  | some sub0 =>
    by_cases hp2 : sub0.pendingNonNull = true
    · simpa [teardownFn, hq, hp2] using h.erase q
    · cases hh : sub0.heliusSubId with
      | none => simpa [teardownFn, hq, hp2, hh] using h.erase q
      | some hid =>
        cases hu : UNSUB_METHOD sub0.method with
        | none => simpa [teardownFn, hq, hp2, hh, hu] using h.erase q
        | some um => simpa [teardownFn, hq, hp2, hh, hu] using h.erase q

theorem teardownFn_countP (t : RegState) (q : Nat) (f : Req → Bool)
    (hf : ∀ m hid, f (Req.unsubR m hid) = false) :
    (teardownFn t q).sent.countP f = t.sent.countP f := by
  cases hq : alookup q t.objs with
  | none => simp [teardownFn, hq]
  | some sub0 =>
    by_cases hp2 : sub0.pendingNonNull = true
    · simp [teardownFn, hq, hp2]
    · cases hh : sub0.heliusSubId with
      | none => simp [teardownFn, hq, hp2, hh]
      | some hid =>
        cases hu : UNSUB_METHOD sub0.method with
        | none => simp [teardownFn, hq, hp2, hh, hu]
        | some um => simp [teardownFn, hq, hp2, hh, hu, List.countP_cons, hf]

theorem teardownFn_map_preserve (t : RegState) (q h2 : Nat)
    (hstale : ∀ sub, alookup q t.objs = some sub → sub.heliusSubId ≠ some h2) :
    alookup h2 (teardownFn t q).heliusIdToProxy = alookup h2 t.heliusIdToProxy := by
  cases hq : alookup q t.objs with
  | none => simp [teardownFn, hq]
  | some sub0 =>
    by_cases hp2 : sub0.pendingNonNull = true
    · simp [teardownFn, hq, hp2]
    · cases hh : sub0.heliusSubId with
      | none => simp [teardownFn, hq, hp2, hh]
      | some hid =>
        cases hu : UNSUB_METHOD sub0.method with
        | none => simp [teardownFn, hq, hp2, hh, hu]
        | some um =>
          have hne : h2 ≠ hid := by
            intro e
            exact hstale sub0 hq (by rw [hh, e])
          simp [teardownFn, hq, hp2, hh, hu, alookup_aerase_ne _ hne]

theorem teardownFn_map_nodup (t : RegState) (q : Nat)
    (h : (t.heliusIdToProxy.map Prod.fst).Nodup) :
    ((teardownFn t q).heliusIdToProxy.map Prod.fst).Nodup := by
  cases hq : alookup q t.objs with
  | none => simpa [teardownFn, hq] using h
  | some sub0 =>
    by_cases hp2 : sub0.pendingNonNull = true
    · simpa [teardownFn, hq, hp2] using h
    · cases hh : sub0.heliusSubId with
      | none => simpa [teardownFn, hq, hp2, hh] using h
      | some hid =>
        cases hu : UNSUB_METHOD sub0.method with
        | none => simpa [teardownFn, hq, hp2, hh, hu] using h
        | some um =>
          simpa [teardownFn, hq, hp2, hh, hu] using nodup_keys_aerase hid _ h

theorem teardownFn_map_sub (t : RegState) (q h2 p : Nat)
    (h : alookup h2 (teardownFn t q).heliusIdToProxy = some p)
    (hnd : (t.heliusIdToProxy.map Prod.fst).Nodup) :
    alookup h2 t.heliusIdToProxy = some p := by
  cases hq : alookup q t.objs with
  | none => rw [← h]; simp [teardownFn, hq]
  | some sub0 =>
    by_cases hp2 : sub0.pendingNonNull = true
    · rw [← h]; simp [teardownFn, hq, hp2]
    · cases hh : sub0.heliusSubId with
      | none => rw [← h]; simp [teardownFn, hq, hp2, hh]
      | some hid =>
        cases hu : UNSUB_METHOD sub0.method with
        | none => rw [← h]; simp [teardownFn, hq, hp2, hh, hu]
        | some um =>
          have h3 : alookup h2 (aerase hid t.heliusIdToProxy) = some p := by
            rw [← h]; simp [teardownFn, hq, hp2, hh, hu]
          exact alookup_of_aerase hnd h3

theorem updObj_objs_other (t : RegState) (q : Nat) (f : Sub → Sub) {p : Nat} (hpq : p ≠ q) :
    alookup p (updObj t q f).objs = alookup p t.objs := by
  cases hq : alookup q t.objs with
  | none => simp [updObj, hq]
  | some sub => simp [updObj, hq, alookup_aset_ne _ _ hpq]

theorem updObj_objs_self (t : RegState) (q : Nat) (f : Sub → Sub) :
    alookup q (updObj t q f).objs = (alookup q t.objs).map f := by
  cases hq : alookup q t.objs with
  | none => simp [updObj, hq]
  | some sub => simp [updObj, hq, alookup_aset_self]

theorem updObj_rest (t : RegState) (q : Nat) (f : Sub → Sub) :
    (updObj t q f).subsKeys = t.subsKeys ∧
    (updObj t q f).heliusIdToProxy = t.heliusIdToProxy ∧
    (updObj t q f).connToSub = t.connToSub ∧
    (updObj t q f).sent = t.sent := by
  cases hq : alookup q t.objs with
  | none => simp [updObj, hq]
  | some sub => simp [updObj, hq]

theorem resyncIssueOne_objs_other (t : RegState) {p q : Nat} (hpq : p ≠ q) :
    alookup p (resyncIssueOne t q).objs = alookup p t.objs := by
  cases hq : alookup q t.objs with
  | none => simp [resyncIssueOne, hq]
  | some sub => simp [resyncIssueOne, hq, alookup_aset_ne _ _ hpq]

theorem resyncIssueOne_rest (t : RegState) (q : Nat) :
    (resyncIssueOne t q).subsKeys = t.subsKeys ∧
    (resyncIssueOne t q).heliusIdToProxy = t.heliusIdToProxy ∧
    (resyncIssueOne t q).connToSub = t.connToSub := by
  cases hq : alookup q t.objs with
  | none => simp [resyncIssueOne, hq]
  | some sub => simp [resyncIssueOne, hq]

theorem resyncResolve_objs_other (t : RegState) (hid : Nat) {p q : Nat} (hpq : p ≠ q) :
    alookup p (resyncResolve t q hid).objs = alookup p t.objs := by
  cases hq : alookup q t.objs with
  | none => simp [resyncResolve, hq]
  | some sub => simp [resyncResolve, hq, alookup_aset_ne _ _ hpq]

theorem resyncResolve_rest (t : RegState) (q hid : Nat) :
    (resyncResolve t q hid).subsKeys = t.subsKeys ∧
    (resyncResolve t q hid).connToSub = t.connToSub ∧
    (resyncResolve t q hid).sent = t.sent := by
  cases hq : alookup q t.objs with
  | none => simp [resyncResolve, hq]
  | some sub => simp [resyncResolve, hq]

theorem resyncResolve_map (t : RegState) (q hid : Nat) :
    (resyncResolve t q hid).heliusIdToProxy = t.heliusIdToProxy ∨
    ((alookup q t.objs).isSome ∧
      (resyncResolve t q hid).heliusIdToProxy = aset hid q t.heliusIdToProxy) := by
  cases hq : alookup q t.objs with
  | none => left; simp [resyncResolve, hq]
  | some sub => right; simp [resyncResolve, hq]

theorem resyncReject_objs_other (t : RegState) {p q : Nat} (hpq : p ≠ q) :
    alookup p (resyncReject t q).objs = alookup p t.objs := by
  unfold resyncReject
  rw [updObj_objs_other _ _ _ hpq]

theorem resyncReject_rest (t : RegState) (q : Nat) :
    (resyncReject t q).subsKeys = t.subsKeys ∧
    (resyncReject t q).heliusIdToProxy = t.heliusIdToProxy ∧
    (resyncReject t q).connToSub = t.connToSub ∧
    (resyncReject t q).sent = t.sent := by
  unfold resyncReject
  exact updObj_rest _ _ _

theorem resyncOne_objs_other (out : Nat → Option Nat) (t : RegState) {p q : Nat}
    (hpq : p ≠ q) :
    alookup p (resyncOne out t q).objs = alookup p t.objs := by
  cases hq : alookup q t.objs with
  | none => simp [resyncOne, hq]
  | some sub =>
    by_cases htm : sub.timerArmed = true
    · simp only [resyncOne, hq, htm, if_true]
      rw [teardownFn_objs_other _ hpq, updObj_objs_other _ _ _ hpq]
    · simp only [resyncOne, hq, htm, Bool.false_eq_true, if_false]
      cases hout : out q with
      | some hid =>
        rw [resyncResolve_objs_other _ _ hpq, resyncIssueOne_objs_other _ hpq]
      | none =>
        rw [resyncReject_objs_other _ hpq, resyncIssueOne_objs_other _ hpq]

theorem resyncOne_mem_subsKeys_other (out : Nat → Option Nat) (t : RegState) {p q : Nat}
    (hpq : p ≠ q) :
    (p ∈ (resyncOne out t q).subsKeys ↔ p ∈ t.subsKeys) := by
  cases hq : alookup q t.objs with
  | none => simp [resyncOne, hq]
  | some sub =>
    by_cases htm : sub.timerArmed = true
    · simp only [resyncOne, hq, htm, if_true]
      rw [teardownFn_mem_subsKeys_other _ hpq, (updObj_rest _ _ _).1]
    · simp only [resyncOne, hq, htm, Bool.false_eq_true, if_false]
      cases hout : out q with
      | some hid => rw [(resyncResolve_rest _ _ _).1, (resyncIssueOne_rest _ _).1]
      | none => rw [(resyncReject_rest _ _).1, (resyncIssueOne_rest _ _).1]

theorem resyncOne_subsKeys_nodup (out : Nat → Option Nat) (t : RegState) (q : Nat)
    (hnd : t.subsKeys.Nodup) : (resyncOne out t q).subsKeys.Nodup := by
  cases hq : alookup q t.objs with
  | none => simpa [resyncOne, hq] using hnd
  | some sub =>
    by_cases htm : sub.timerArmed = true
    · simp only [resyncOne, hq, htm, if_true]
      exact teardownFn_subsKeys_nodup _ _ (by rw [(updObj_rest _ _ _).1]; exact hnd)
    · simp only [resyncOne, hq, htm, Bool.false_eq_true, if_false]
      cases hout : out q with
      | some hid => rw [(resyncResolve_rest _ _ _).1, (resyncIssueOne_rest _ _).1]; exact hnd
      | none => rw [(resyncReject_rest _ _).1, (resyncIssueOne_rest _ _).1]; exact hnd

theorem resyncOne_countP_other (out : Nat → Option Nat) (t : RegState) {p q : Nat}
    (hpq : q ≠ p) :
    (resyncOne out t q).sent.countP (isCreateFor p) = t.sent.countP (isCreateFor p) := by
  have hfu : ∀ m hid, isCreateFor p (Req.unsubR m hid) = false := fun m hid => rfl
  cases hq : alookup q t.objs with
  | none => simp [resyncOne, hq]
  | some sub =>
    by_cases htm : sub.timerArmed = true
    · simp only [resyncOne, hq, htm, if_true]
      rw [teardownFn_countP _ _ _ hfu, (updObj_rest _ _ _).2.2.2]
    · simp only [resyncOne, hq, htm, Bool.false_eq_true, if_false]
      have hIss : (resyncIssueOne t q).sent.countP (isCreateFor p)
          = t.sent.countP (isCreateFor p) := by
        simp [resyncIssueOne, hq, List.countP_cons, isCreateFor, hpq]
      cases hout : out q with
      | some hid => rw [(resyncResolve_rest _ _ _).2.2, hIss]
      | none => rw [(resyncReject_rest _ _).2.2.2, hIss]

theorem resyncOne_map_preserve (out : Nat → Option Nat) (t : RegState) (q h2 : Nat)
    (hout : out q ≠ some h2)
    (hstale : ∀ sub, alookup q t.objs = some sub → sub.heliusSubId ≠ some h2) :
    alookup h2 (resyncOne out t q).heliusIdToProxy = alookup h2 t.heliusIdToProxy := by
  cases hq : alookup q t.objs with
  | none => simp [resyncOne, hq]
  | some sub =>
    by_cases htm : sub.timerArmed = true
    · simp only [resyncOne, hq, htm, if_true]
      rw [teardownFn_map_preserve _ _ _ ?_, (updObj_rest _ _ _).2.1]
      intro sub2 hsub2
      rw [updObj_objs_self, hq] at hsub2
      injection hsub2 with hsub2
      rw [← hsub2]
      exact hstale sub hq
    · simp only [resyncOne, hq, htm, Bool.false_eq_true, if_false]
      cases hout2 : out q with
      | some hid =>
        have hne : h2 ≠ hid := by
          intro e
          exact hout (by rw [hout2, e])
        rcases resyncResolve_map (resyncIssueOne t q) q hid with hm | hm
        · rw [hm, (resyncIssueOne_rest _ _).2.1]
        · rw [hm.2, alookup_aset_ne _ _ hne, (resyncIssueOne_rest _ _).2.1]
      | none =>
        rw [(resyncReject_rest _ _).2.1, (resyncIssueOne_rest _ _).2.1]

theorem resyncOne_map_nodup (out : Nat → Option Nat) (t : RegState) (q : Nat)
    (hnd : (t.heliusIdToProxy.map Prod.fst).Nodup) :
    ((resyncOne out t q).heliusIdToProxy.map Prod.fst).Nodup := by
  cases hq : alookup q t.objs with
  | none => simpa [resyncOne, hq] using hnd
  | some sub =>
    by_cases htm : sub.timerArmed = true
    · simp only [resyncOne, hq, htm, if_true]
      exact teardownFn_map_nodup _ _ (by rw [(updObj_rest _ _ _).2.1]; exact hnd)
    · simp only [resyncOne, hq, htm, Bool.false_eq_true, if_false]
      cases hout : out q with
      | some hid =>
        rcases resyncResolve_map (resyncIssueOne t q) q hid with hm | hm
        · rw [hm, (resyncIssueOne_rest _ _).2.1]; exact hnd
        · rw [hm.2]
          exact nodup_keys_aset _ _ _ (by rw [(resyncIssueOne_rest _ _).2.1]; exact hnd)
      | none =>
        rw [(resyncReject_rest _ _).2.1, (resyncIssueOne_rest _ _).2.1]
        exact hnd

theorem foldl_resync_preserve (out : Nat → Option Nat) (L : List Nat) (t : RegState) (p : Nat)
    (hp : p ∉ L) :
    alookup p (L.foldl (resyncOne out) t).objs = alookup p t.objs ∧
    (p ∈ (L.foldl (resyncOne out) t).subsKeys ↔ p ∈ t.subsKeys) ∧
    (L.foldl (resyncOne out) t).sent.countP (isCreateFor p)
      = t.sent.countP (isCreateFor p) := by
  induction L generalizing t with
  | nil => exact ⟨rfl, Iff.rfl, rfl⟩
  | cons q L2 ih =>
    have hpq : p ≠ q := fun e => hp (e ▸ List.mem_cons_self q L2)
    have hp2 : p ∉ L2 := fun h => hp (List.mem_cons_of_mem _ h)
    simp only [List.foldl_cons]
    obtain ⟨h1, h2, h3⟩ := ih (resyncOne out t q) hp2
    exact ⟨h1.trans (resyncOne_objs_other out t hpq),
           h2.trans (resyncOne_mem_subsKeys_other out t hpq),
           h3.trans (resyncOne_countP_other out t (fun e => hpq e.symm))⟩

theorem foldl_resync_countP_exact (out : Nat → Option Nat) (L : List Nat) (t : RegState)
    (p : Nat) (m : String) (prm : Nat) (hp : p ∉ L) :
    (L.foldl (resyncOne out) t).sent.countP (fun r => r == Req.create p m prm)
      = t.sent.countP (fun r => r == Req.create p m prm) := by
  induction L generalizing t with
  | nil => rfl
  | cons q L2 ih =>
    have hpq : q ≠ p := fun e => hp (e ▸ List.mem_cons_self q L2)
    have hp2 : p ∉ L2 := fun h => hp (List.mem_cons_of_mem _ h)
    simp only [List.foldl_cons]
    rw [ih (resyncOne out t q) hp2]
    have hfu : ∀ m2 hid, (fun r => r == Req.create p m prm) (Req.unsubR m2 hid) = false := by
      intro m2 hid
      simp
    cases hq : alookup q t.objs with
    | none => simp [resyncOne, hq]
    | some sub =>
      by_cases htm : sub.timerArmed = true
      · simp only [resyncOne, hq, htm, if_true]
        rw [teardownFn_countP _ _ _ hfu, (updObj_rest _ _ _).2.2.2]
      · simp only [resyncOne, hq, htm, Bool.false_eq_true, if_false]
        have hIss : (resyncIssueOne t q).sent.countP (fun r => r == Req.create p m prm)
            = t.sent.countP (fun r => r == Req.create p m prm) := by
          simp [resyncIssueOne, hq, List.countP_cons, Req.create.injEq, hpq]
        cases hout : out q with
        | some hid => rw [(resyncResolve_rest _ _ _).2.2, hIss]
        | none => rw [(resyncReject_rest _ _).2.2.2, hIss]

theorem foldl_resync_subsKeys_nodup (out : Nat → Option Nat) (L : List Nat) (t : RegState)
    (hnd : t.subsKeys.Nodup) : (L.foldl (resyncOne out) t).subsKeys.Nodup := by
  induction L generalizing t with
  | nil => exact hnd
  | cons q L2 ih =>
    simp only [List.foldl_cons]
    exact ih _ (resyncOne_subsKeys_nodup out t q hnd)

theorem foldl_resync_map_preserve (out : Nat → Option Nat) (L : List Nat) (t : RegState)
    (h2 : Nat)
    (hout : ∀ q ∈ L, out q ≠ some h2)
    (hstale : ∀ q ∈ L, ∀ sub, alookup q t.objs = some sub → sub.heliusSubId ≠ some h2)
    (hnd : L.Nodup) :
    alookup h2 (L.foldl (resyncOne out) t).heliusIdToProxy
      = alookup h2 t.heliusIdToProxy := by
  induction L generalizing t with
  | nil => rfl
  | cons q L2 ih =>
    simp only [List.foldl_cons]
    have hnd2 := List.nodup_cons.1 hnd
    have step := resyncOne_map_preserve out t q h2 (hout q (List.mem_cons_self _ _))
      (hstale q (List.mem_cons_self _ _))
    rw [ih (resyncOne out t q) (fun q2 hq2 => hout q2 (List.mem_cons_of_mem _ hq2)) ?_ hnd2.2,
        step]
    intro q2 hq2 sub hsub
    have hne : q2 ≠ q := fun e => hnd2.1 (e ▸ hq2)
    rw [resyncOne_objs_other out t hne] at hsub
    exact hstale q2 (List.mem_cons_of_mem _ hq2) sub hsub

theorem foldl_resync_good (out : Nat → Option Nat) (keys : List Nat) (L : List Nat)
    (t : RegState) (hL : ∀ q ∈ L, q ∈ keys)
    (hnd : (t.heliusIdToProxy.map Prod.fst).Nodup)
    (hg : ∀ h2 p, alookup h2 t.heliusIdToProxy = some p → p ∈ keys ∧ out p = some h2) :
    ∀ h2 p, alookup h2 (L.foldl (resyncOne out) t).heliusIdToProxy = some p →
      p ∈ keys ∧ out p = some h2 := by
  induction L generalizing t with
  | nil => exact hg
  | cons q L2 ih =>
    simp only [List.foldl_cons]
    refine ih (resyncOne out t q) (fun q2 h => hL q2 (List.mem_cons_of_mem _ h))
      (resyncOne_map_nodup out t q hnd) ?_
    intro h2 p hlk
    cases hq : alookup q t.objs with
    | none =>
      simp only [resyncOne, hq] at hlk
      exact hg h2 p hlk
    | some sub =>
      by_cases htm : sub.timerArmed = true
      · simp only [resyncOne, hq, htm, if_true] at hlk
        have hlk2 := teardownFn_map_sub _ q h2 p hlk
          (by rw [(updObj_rest _ _ _).2.1]; exact hnd)
        rw [(updObj_rest _ _ _).2.1] at hlk2
        exact hg h2 p hlk2
      · simp only [resyncOne, hq, htm, Bool.false_eq_true, if_false] at hlk
        cases hout2 : out q with
        | some hid =>
          rw [hout2] at hlk
          rcases resyncResolve_map (resyncIssueOne t q) q hid with hm | hm
          · rw [hm, (resyncIssueOne_rest _ _).2.1] at hlk
            exact hg h2 p hlk
          · rw [hm.2, (resyncIssueOne_rest _ _).2.1] at hlk
            by_cases hh : h2 = hid
            · subst hh
              rw [alookup_aset_self] at hlk
              injection hlk with hlk
              subst hlk
              exact ⟨hL q (List.mem_cons_self _ _), hout2⟩
            · rw [alookup_aset_ne _ _ hh] at hlk
              exact hg h2 p hlk
        | none =>
          rw [hout2] at hlk
          rw [(resyncReject_rest _ _).2.1, (resyncIssueOne_rest _ _).2.1] at hlk
          exact hg h2 p hlk

theorem teardownFn_self_not_mem (t : RegState) (p : Nat) (sub : Sub)
    (hq : alookup p t.objs = some sub) (hnd : t.subsKeys.Nodup) :
    p ∉ (teardownFn t p).subsKeys ∧
    (alookup p (teardownFn t p).objs).map Sub.timerArmed = some false := by
  by_cases hp2 : sub.pendingNonNull = true
  · simp [teardownFn, hq, hp2, alookup_aset_self, hnd.not_mem_erase]
  · cases hh : sub.heliusSubId with
    | none => simp [teardownFn, hq, hp2, hh, alookup_aset_self, hnd.not_mem_erase]
    | some hid =>
      cases hu : UNSUB_METHOD sub.method with
      | none => simp [teardownFn, hq, hp2, hh, hu, alookup_aset_self, hnd.not_mem_erase]
      | some um => simp [teardownFn, hq, hp2, hh, hu, alookup_aset_self, hnd.not_mem_erase]

theorem resyncOne_self_timer (out : Nat → Option Nat) (t : RegState) (p : Nat) (sub : Sub)
    (hq : alookup p t.objs = some sub) (htm : sub.timerArmed = true)
    (hnd : t.subsKeys.Nodup) :
    p ∉ (resyncOne out t p).subsKeys ∧
    (alookup p (resyncOne out t p).objs).map Sub.timerArmed = some false ∧
    (resyncOne out t p).sent.countP (isCreateFor p) = t.sent.countP (isCreateFor p) ∧
    (resyncOne out t p).sent.countP (fun r => r == Req.create p sub.method sub.params)
      = t.sent.countP (fun r => r == Req.create p sub.method sub.params) := by
  have hobj2 : alookup p (updObj t p (fun x => { x with timerArmed := false })).objs
      = some { sub with timerArmed := false } := by
    rw [updObj_objs_self, hq]
    rfl
  have hnd2 : (updObj t p (fun x => { x with timerArmed := false })).subsKeys.Nodup := by
    rw [(updObj_rest _ _ _).1]
    exact hnd
  have h3 := teardownFn_self_not_mem _ p _ hobj2 hnd2
  have hfu : ∀ m hid, isCreateFor p (Req.unsubR m hid) = false := fun m hid => rfl
  have hfu2 : ∀ m2 hid,
      (fun r => r == Req.create p sub.method sub.params) (Req.unsubR m2 hid) = false := by
    intro m2 hid
    simp
  refine ⟨?_, ?_, ?_, ?_⟩
  · simp only [resyncOne, hq, htm, if_true]
    exact h3.1
  · simp only [resyncOne, hq, htm, if_true]
    exact h3.2
  · simp only [resyncOne, hq, htm, if_true]
    rw [teardownFn_countP _ _ _ hfu, (updObj_rest _ _ _).2.2.2]
  · simp only [resyncOne, hq, htm, if_true]
    rw [teardownFn_countP _ _ _ hfu2, (updObj_rest _ _ _).2.2.2]

theorem resyncOne_self_active (out : Nat → Option Nat) (t : RegState) (p : Nat) (sub : Sub)
    (hq : alookup p t.objs = some sub) (htm : sub.timerArmed = false) :
    (p ∈ (resyncOne out t p).subsKeys ↔ p ∈ t.subsKeys) ∧
    (∀ hid, out p = some hid →
      alookup p (resyncOne out t p).objs =
        some { sub with heliusSubId := some hid, pendingNonNull := false } ∧
      alookup hid (resyncOne out t p).heliusIdToProxy = some p) ∧
    (out p = none →
      alookup p (resyncOne out t p).objs =
        some { sub with heliusSubId := none, pendingNonNull := false }) ∧
    (resyncOne out t p).sent.countP (isCreateFor p)
      = t.sent.countP (isCreateFor p) + 1 ∧
    (resyncOne out t p).sent.countP (fun r => r == Req.create p sub.method sub.params)
      = t.sent.countP (fun r => r == Req.create p sub.method sub.params) + 1 := by
  have htm2 : ¬ sub.timerArmed = true := by simp [htm]
  have hIssObj : alookup p (resyncIssueOne t p).objs
      = some { sub with heliusSubId := none, pendingNonNull := true } := by
    simp [resyncIssueOne, hq, alookup_aset_self]
  have hIssSent : (resyncIssueOne t p).sent
      = Req.create p sub.method sub.params :: t.sent := by
    simp [resyncIssueOne, hq]
  refine ⟨?_, ?_, ?_, ?_, ?_⟩
  · simp only [resyncOne, hq, htm2, Bool.false_eq_true, if_false]
    cases hout : out p with
    | some hid => rw [(resyncResolve_rest _ _ _).1, (resyncIssueOne_rest _ _).1]
    | none => rw [(resyncReject_rest _ _).1, (resyncIssueOne_rest _ _).1]
  · intro hid hout
    simp only [resyncOne, hq, htm2, Bool.false_eq_true, if_false, hout]
    constructor
    · simp only [resyncResolve, hIssObj]
      rw [alookup_aset_self]
      simp [htm]
    · simp only [resyncResolve, hIssObj]
      rw [alookup_aset_self]
  · intro hout
    simp only [resyncOne, hq, htm2, Bool.false_eq_true, if_false, hout]
    unfold resyncReject
    rw [updObj_objs_self]
    show ((alookup p (resyncIssueOne t p).objs).map _) = _
    rw [hIssObj]
    simp [htm]
  · simp only [resyncOne, hq, htm2, Bool.false_eq_true, if_false]
    cases hout : out p with
    | some hid =>
      rw [(resyncResolve_rest _ _ _).2.2, hIssSent, List.countP_cons]
      simp [isCreateFor]
    | none =>
      rw [(resyncReject_rest _ _).2.2.2, hIssSent, List.countP_cons]
      simp [isCreateFor]
  · simp only [resyncOne, hq, htm2, Bool.false_eq_true, if_false]
    cases hout : out p with
    | some hid =>
      rw [(resyncResolve_rest _ _ _).2.2, hIssSent, List.countP_cons]
      simp
    | none =>
      rw [(resyncReject_rest _ _).2.2.2, hIssSent, List.countP_cons]
      simp

/-- C6: on the reconnected event the reverse map is discarded first (every
entry of the resulting reverse map originates from a successful re-issue);
a Subscription with an armed grace timer has the timer cancelled and is
torn down instead of being resubscribed (no create RPC is issued for it,
and it leaves the forward map); every other Subscription keeps its proxy
id, method, params and connection, has exactly one new create RPC with the
original method and params written, gets the new upstream id and a fresh
reverse entry on success, and a cleared upstream id on failure — with
re-issues proceeding independently, so one failure never prevents the
others (the per-subscription conclusions hold for every outcome
assignment `out`).  Hypotheses: forward-map keys are unique, upstream ids
assigned by `out` are distinct, and fresh relative to ids recorded before
the reconnect. -/
theorem c6_reconnect_resync (s : RegState) (out : Nat → Option Nat)
    (hnd : s.subsKeys.Nodup)
    (hinj : ∀ p ∈ s.subsKeys, ∀ q ∈ s.subsKeys, ∀ h2,
      out p = some h2 → out q = some h2 → p = q)
    (hfresh : ∀ p ∈ s.subsKeys, ∀ q ∈ s.subsKeys, ∀ h2 sub,
      out p = some h2 → alookup q s.objs = some sub → sub.heliusSubId ≠ some h2) :
    (∀ h2 p, alookup h2 (handleReconnected out s).heliusIdToProxy = some p →
      p ∈ s.subsKeys ∧ out p = some h2) ∧
    (∀ p ∈ s.subsKeys, ∀ sub, alookup p s.objs = some sub →
      (sub.timerArmed = true →
        p ∉ (handleReconnected out s).subsKeys ∧
        (alookup p (handleReconnected out s).objs).map Sub.timerArmed = some false ∧
        (handleReconnected out s).sent.countP (isCreateFor p)
          = s.sent.countP (isCreateFor p)) ∧
      (sub.timerArmed = false →
        p ∈ (handleReconnected out s).subsKeys ∧
        (handleReconnected out s).sent.countP
            (fun r => r == Req.create p sub.method sub.params)
          = s.sent.countP (fun r => r == Req.create p sub.method sub.params) + 1 ∧
        (∀ hid, out p = some hid →
          alookup p (handleReconnected out s).objs =
            some { sub with heliusSubId := some hid, pendingNonNull := false } ∧
          alookup hid (handleReconnected out s).heliusIdToProxy = some p) ∧
        (out p = none →
          alookup p (handleReconnected out s).objs =
            some { sub with heliusSubId := none, pendingNonNull := false }))) := by
  constructor
  · exact foldl_resync_good out s.subsKeys s.subsKeys (reconnectClear s)
      (fun q h => h) (by simp [reconnectClear]) (by intro h2 p h; simp [reconnectClear, alookup] at h)
  · intro p hp sub hsub
    rcases List.append_of_mem hp with ⟨L1, L2, hkeys⟩
    have hndA : (L1 ++ p :: L2).Nodup := hkeys ▸ hnd
    obtain ⟨hndL1, hndpL2, hdisj⟩ := List.nodup_append.1 hndA
    obtain ⟨hpL2, hndL2⟩ := List.nodup_cons.1 hndpL2
    have hpL1 : p ∉ L1 := fun hmem => hdisj hmem (List.mem_cons_self _ _)
    have hHR : handleReconnected out s
        = L2.foldl (resyncOne out)
            (resyncOne out (L1.foldl (resyncOne out) (reconnectClear s)) p) := by
      show s.subsKeys.foldl (resyncOne out) (reconnectClear s) = _
      rw [hkeys, List.foldl_append, List.foldl_cons]
    have pres1 := foldl_resync_preserve out L1 (reconnectClear s) p hpL1
    have e1 : alookup p (L1.foldl (resyncOne out) (reconnectClear s)).objs = some sub :=
      pres1.1.trans hsub
    have t1nd : (L1.foldl (resyncOne out) (reconnectClear s)).subsKeys.Nodup :=
      foldl_resync_subsKeys_nodup out L1 (reconnectClear s) hnd
    constructor
    · intro htm
      have step := resyncOne_self_timer out _ p sub e1 htm t1nd
      have pres2 := foldl_resync_preserve out L2
        (resyncOne out (L1.foldl (resyncOne out) (reconnectClear s)) p) p hpL2
      refine ⟨?_, ?_, ?_⟩
      · rw [hHR]
        intro hmem
        exact step.1 (pres2.2.1.1 hmem)
      · rw [hHR, pres2.1]
        exact step.2.1
      · rw [hHR, pres2.2.2, step.2.2.1, pres1.2.2]
        rfl
    · intro htm
      have step := resyncOne_self_active out _ p sub e1 htm
      have pres2 := foldl_resync_preserve out L2
        (resyncOne out (L1.foldl (resyncOne out) (reconnectClear s)) p) p hpL2
      refine ⟨?_, ?_, ?_, ?_⟩
      · rw [hHR]
        exact pres2.2.1.2 ((step.1).2 (pres1.2.1.2 hp))
      · rw [hHR, foldl_resync_countP_exact out L2 _ p sub.method sub.params hpL2,
            step.2.2.2.2, foldl_resync_countP_exact out L1 _ p sub.method sub.params hpL1]
        rfl
      · intro hid hout
        have stepH := step.2.1 hid hout
        refine ⟨?_, ?_⟩
        · rw [hHR, pres2.1]
          exact stepH.1
        · rw [hHR]
          rw [foldl_resync_map_preserve out L2 _ hid ?_ ?_ hndL2]
          · exact stepH.2
          · intro q hq e
            have hqkeys : q ∈ s.subsKeys := by
              rw [hkeys]
              exact List.mem_append_right _ (List.mem_cons_of_mem _ hq)
            have : q = p := hinj q hqkeys p hp hid e hout
            exact hpL2 (this ▸ hq)
          · intro q hq subq hsubq
            have hqp : q ≠ p := fun e => hpL2 (e ▸ hq)
            have hqL1 : q ∉ L1 := fun hmem =>
              hdisj hmem (List.mem_cons_of_mem _ hq)
            rw [resyncOne_objs_other out _ hqp,
                (foldl_resync_preserve out L1 (reconnectClear s) q hqL1).1] at hsubq
            have hqkeys : q ∈ s.subsKeys := by
              rw [hkeys]
              exact List.mem_append_right _ (List.mem_cons_of_mem _ hq)
            exact hfresh p hp q hqkeys hid subq hout hsubq
      · intro hout
        have stepH := step.2.2.1 hout
        rw [hHR, pres2.1]
        exact stepH

theorem c6w_inj : ∀ p ∈ c6w5.subsKeys, ∀ q ∈ c6w5.subsKeys, ∀ h2,
    c6out p = some h2 → c6out q = some h2 → p = q := by
  intro p _ q _ h2 hpo hqo
  by_cases h2p : p = 2
  · by_cases h2q : q = 2
    · rw [h2p, h2q]
    · simp [c6out, h2q] at hqo
  · simp [c6out, h2p] at hpo

theorem c6w_fresh : ∀ p ∈ c6w5.subsKeys, ∀ q ∈ c6w5.subsKeys, ∀ h2 sub,
    c6out p = some h2 → alookup q c6w5.objs = some sub → sub.heliusSubId ≠ some h2 := by
  intro p hp q hq h2 sub hpo hlk hcon
  by_cases h2p : p = 2
  · rw [h2p] at hpo
    simp only [c6out, if_pos rfl] at hpo
    injection hpo with hpo
    subst hpo
    have hq2 : q = 1 ∨ q = 2 := by
      have h4 := hq
      rw [show c6w5.subsKeys = [1, 2] from by decide] at h4
      simpa using h4
    rcases hq2 with e | e <;> subst e
    · have hl : alookup 1 c6w5.objs =
          some { proxySubId := 1, connectionId := 0, method := "slotSubscribe", params := 3,
                 heliusSubId := some 7, pendingNonNull := false, cancelled := false,
                 timerArmed := true } := by decide
      rw [hl] at hlk
      injection hlk with hlk
      rw [← hlk] at hcon
      simp at hcon
    · have hl : alookup 2 c6w5.objs = some c6wSub2 := by decide
      rw [hl] at hlk
      injection hlk with hlk
      rw [← hlk] at hcon
      simp [c6wSub2] at hcon
  · simp [c6out, h2p] at hpo

/-- C6 witness: the theorem applied to the concrete two-subscription state
`c6w5` with outcome `c6out`, instantiated at the active subscription
(proxy id 2). -/
theorem c6_reconnect_resync_witness :
    (c6w5.subsKeys.Nodup ∧ 2 ∈ c6w5.subsKeys ∧ alookup 2 c6w5.objs = some c6wSub2 ∧
     c6wSub2.timerArmed = false ∧ c6out 2 = some 11) ∧
    (2 ∈ (handleReconnected c6out c6w5).subsKeys ∧
     (handleReconnected c6out c6w5).sent.countP
         (fun r => r == Req.create 2 c6wSub2.method c6wSub2.params)
       = c6w5.sent.countP (fun r => r == Req.create 2 c6wSub2.method c6wSub2.params) + 1 ∧
     (alookup 2 (handleReconnected c6out c6w5).objs =
        some { c6wSub2 with heliusSubId := some 11, pendingNonNull := false } ∧
      alookup 11 (handleReconnected c6out c6w5).heliusIdToProxy = some 2)) :=
  ⟨by decide,
   (fun X => ⟨X.1, X.2.1, X.2.2.1 11 rfl⟩)
     (((c6_reconnect_resync c6w5 c6out (by decide) c6w_inj c6w_fresh).2 2 (by decide)
        c6wSub2 (by decide)).2 (by decide))⟩

end HeliusProxy
